import Mathlib

/-!
# tinyplypy: the NumPy <-> tinyply marshalling layer of `bindings.cpp`

A shallow embedding of `numpy_dtype_to_tinyply_type`, `tinyply_type_to_numpy_dtype`,
`read_ply` and `write_ply`.  The tinyply engine (`tinyply.h`) and NumPy are external to the
file: engine calls are either recorded (write side) or taken from an abstract engine
interface (read side).  Sizes are natural numbers; where the source computes in `size_t`,
`uint32_t` or `py::ssize_t` the wrap-around is written out.
-/

namespace tinyplypy

/-! ## Data model -/

/-- Modelled from the spec: the enum `tinyply::Type` is declared in `tinyply.h`, which is not
among the sources.  The members are the spec's StorageType set, plus `FLOAT64`, which the
source names in its commented-out cases and which falls in the `default:` branch. -/
inductive StorageType where
  | INVALID
  | INT8
  | UINT8
  | INT16
  | UINT16
  | INT32
  | UINT32
  | FLOAT32
  | FLOAT64
  deriving DecidableEq, Repr

/-- Modelled from the spec: `tinyply::PropertyTable[t].stride` of `tinyply.h`, the byte width of
one value: 1,1,2,2,4,4,4 for the seven supported types (spec section 3); `FLOAT64` is 8 bytes
wide and `INVALID` has width 0. -/
def stride : StorageType → Nat
  | .INVALID => 0
  | .INT8 => 1
  | .UINT8 => 1
  | .INT16 => 2
  | .UINT16 => 2
  | .INT32 => 4
  | .UINT32 => 4
  | .FLOAT32 => 4
  | .FLOAT64 => 8

/-- The part of a `pybind11::dtype` the source looks at: `dt.kind()` and `dt.itemsize()`. -/
structure dtype where
  kind : Char
  itemsize : Nat
  deriving DecidableEq, Repr

/-- The `std::runtime_error`s thrown by `bindings.cpp`, one constructor per `throw`, named by
the error kind the spec gives it, and the exceptions that propagate from the engine.
* `UnsupportedDtype`: "numpy_dtype_to_tinyply_type: Unsupported NumPy dtype" (UnsupportedType)
* `UnsupportedType`: "tinyply_type_to_numpy_dtype: Unsupported tinyply type" (UnsupportedType)
* `OpenFailed f`: "Failed to open file: f" and "write_ply: failed to open file: f"
* `UnsupportedShape p`: "Variable-size list property 'p' not handled"
* `ShapeMismatch p`: "Mismatch in fixed list property for p"
* `UnsupportedRank`: "write_ply: Only 1D or 2D arrays are supported. " (UnsupportedShape)
* `Engine msg`: an exception thrown inside tinyply (`parse_header`, `read`, `write`). -/
inductive PlyError where
  | UnsupportedDtype
  | UnsupportedType
  | OpenFailed (filename : String)
  | UnsupportedShape (prop : String)
  | ShapeMismatch (prop : String)
  | UnsupportedRank
  | Engine (msg : String)
  deriving DecidableEq, Repr

/-! ## TypeMap (bindings.cpp lines 15-57) -/

/-- The function `numpy_dtype_to_tinyply_type` (lines 15-37): the if/else-if chain on
`dt.kind()` and `dt.itemsize()`, ending in the `throw`. -/
def numpy_dtype_to_tinyply_type (dt : dtype) : Except PlyError StorageType :=
  if dt.kind = 'f' ∧ dt.itemsize = 4 then .ok .FLOAT32
  else if dt.kind = 'i' ∧ dt.itemsize = 1 then .ok .INT8
  else if dt.kind = 'u' ∧ dt.itemsize = 1 then .ok .UINT8
  else if dt.kind = 'i' ∧ dt.itemsize = 2 then .ok .INT16
  else if dt.kind = 'u' ∧ dt.itemsize = 2 then .ok .UINT16
  else if dt.kind = 'i' ∧ dt.itemsize = 4 then .ok .INT32
  else if dt.kind = 'u' ∧ dt.itemsize = 4 then .ok .UINT32
  else .error .UnsupportedDtype

/-- The function `tinyply_type_to_numpy_dtype` (lines 39-57): `dtype::of<float>()` is the
4-byte float dtype, `dtype("int8")` the 1-byte signed integer dtype, and so on; every other
enum value reaches `default:` and throws. -/
def tinyply_type_to_numpy_dtype : StorageType → Except PlyError dtype
  | .FLOAT32 => .ok ⟨'f', 4⟩
  | .INT8 => .ok ⟨'i', 1⟩
  | .UINT8 => .ok ⟨'u', 1⟩
  | .INT16 => .ok ⟨'i', 2⟩
  | .UINT16 => .ok ⟨'u', 2⟩
  | .INT32 => .ok ⟨'i', 4⟩
  | .UINT32 => .ok ⟨'u', 4⟩
  | _ => .error .UnsupportedType

/-- The seven (kind, itemsize) pairs of the supported dtypes, in the order of the source. -/
def supportedDtypes : List dtype :=
  [⟨'f', 4⟩, ⟨'i', 1⟩, ⟨'u', 1⟩, ⟨'i', 2⟩, ⟨'u', 2⟩, ⟨'i', 4⟩, ⟨'u', 4⟩]

/-- The seven supported storage types, in the order of the source. -/
def supportedTypes : List StorageType :=
  [.FLOAT32, .INT8, .UINT8, .INT16, .UINT16, .INT32, .UINT32]

/-! ## Machine integers -/

/-- The value of a `size_t` expression whose mathematical value is `n` (64-bit, wraps). -/
def size_t (n : Nat) : Nat := n % 2 ^ 64

/-- The cast `static_cast<uint32_t>(n)` of a `size_t` value. -/
def uint32_t (n : Nat) : Nat := n % 2 ^ 32

/-- The cast `static_cast<py::ssize_t>(n)` of a `size_t` value (two's complement). -/
def ssize_t (n : Nat) : Int :=
  if n % 2 ^ 64 < 2 ^ 63 then ((n % 2 ^ 64 : Nat) : Int) else ((n % 2 ^ 64 : Nat) : Int) - 2 ^ 64

/-- The implicit conversion of a `py::ssize_t` (an entry of `array.shape()`) to `size_t`. -/
def ssize_to_size_t (i : Int) : Nat := (i % 2 ^ 64).toNat

/-! ## Arrays and dicts -/

/-- One byte of a buffer. -/
abbrev byte := Fin 256

/-- A `py::array` as the source sees and builds it: `dtype()`, `shape()` (so `ndim()` is its
length), the strides and the bytes at `data()`.  On the read side these are the arguments the
source hands to the `py::array` constructor; what NumPy makes of arguments outside the range of
an array (a negative dimension) is not modelled. -/
structure array where
  dtype : dtype
  shape : List Int
  strides : List Int
  data : List byte
  deriving DecidableEq, Repr

/-- A Python `dict` with string keys, as the list of its items in iteration order. -/
abbrev PyDict (α : Type) := List (String × α)

/-- The assignment `d[key] = value` on a Python dict: an existing key keeps its place and
gets the new value, a new key goes to the end. -/
def PyDict.setitem {α : Type} : PyDict α → String → α → PyDict α
  | [], key, value => [(key, value)]
  | (k, v) :: rest, key, value =>
    if k = key then (k, value) :: rest else (k, v) :: PyDict.setitem rest key value

/-! ## write_ply (bindings.cpp lines 220-317) -/

/-- The arguments of one call `plyFile.add_properties_to_element(elementKey, propertyKeys,
type, count, data, listType, listCount)`; `data` is the memory the pointer `dataPtr`
designates. -/
structure AddedProperty where
  elementKey : String
  propertyKeys : List String
  type : StorageType
  count : Nat
  data : List byte
  listType : StorageType
  listCount : Nat
  deriving DecidableEq, Repr

/-- The local `PlyFile plyFile` of `write_ply`, as far as `write_ply` drives it: the
`add_properties_to_element` calls in order, and `get_comments()`. -/
structure PlyFileDecl where
  added : List AddedProperty
  comments : List String
  deriving DecidableEq, Repr

/-- The body of the inner loop of `write_ply` (lines 237-300) for one `propItem`: shape
extraction, dtype mapping and the arguments of the one `add_properties_to_element` call. -/
def add_array (elementName propertyName : String) (a : array) : Except PlyError AddedProperty :=
  let shapeInfo : Except PlyError (Nat × Nat) :=
    match a.shape with
    | [d0] => .ok (ssize_to_size_t d0, 1)
    | [d0, d1] => .ok (ssize_to_size_t d0, ssize_to_size_t d1)
    | _ => .error .UnsupportedRank
  match shapeInfo with
  | .error e => .error e
  | .ok (count, listCount) =>
    match numpy_dtype_to_tinyply_type a.dtype with
    | .error e => .error e
    | .ok plyType =>
      if listCount = 1 then
        .ok ⟨elementName, [propertyName], plyType, count, a.data, .INVALID, 0⟩
      else
        .ok ⟨elementName, [propertyName], plyType, count, a.data, .UINT8, uint32_t listCount⟩

/-- The inner loop `for (auto propItem : properties)` (line 235). -/
def add_properties (elementName : String) :
    List (String × array) → PlyFileDecl → Except PlyError PlyFileDecl
  | [], plyFile => .ok plyFile
  | (propertyName, a) :: rest, plyFile =>
    match add_array elementName propertyName a with
    | .error e => .error e
    | .ok c => add_properties elementName rest ⟨plyFile.added ++ [c], plyFile.comments⟩

/-- The outer loop `for (auto item : pyDict)` (line 229). -/
def add_elements : List (String × PyDict array) → PlyFileDecl → Except PlyError PlyFileDecl
  | [], plyFile => .ok plyFile
  | (elementName, properties) :: rest, plyFile =>
    match add_properties elementName properties plyFile with
    | .error e => .error e
    | .ok plyFile1 => add_elements rest plyFile1

/-- What `write_ply` does to the world outside, in order: the call `fb.open(filename, mode)`
(`binary` tells whether `std::ios::binary` is in the mode) and the call
`plyFile.write(outstream, isBinary)`. -/
inductive Effect where
  | fopen (filename : String) (binary : Bool)
  | engine_write (plyFile : PlyFileDecl) (isBinary : Bool)
  deriving DecidableEq, Repr

/-- The world `write_ply` runs in: whether `fb.open(filename, mode)` succeeds, and whether the
engine's `write` throws. -/
structure WriteEnv where
  fopen_ok : String → Bool → Bool
  engine_write : PlyFileDecl → Bool → Except PlyError Unit

/-- The function `write_ply` (lines 220-317): the effects performed, in order, and the
outcome (`.error` when an exception leaves the function). -/
def write_ply (env : WriteEnv) (filename : String) (pyDict : PyDict (PyDict array))
    (isBinary : Bool) : List Effect × Except PlyError Unit :=
  match add_elements pyDict ⟨[], []⟩ with
  | .error e => ([], .error e)
  | .ok plyFile0 =>
    let plyFile : PlyFileDecl := ⟨plyFile0.added, plyFile0.comments ++ ["Generated by tinyplypy"]⟩
    if env.fopen_ok filename isBinary then
      ([.fopen filename isBinary, .engine_write plyFile isBinary],
        env.engine_write plyFile isBinary)
    else
      ([.fopen filename isBinary], .error (.OpenFailed filename))

/-! ## read_ply (bindings.cpp lines 62-209) -/

/-- The fields of `tinyply::PlyProperty` that `read_ply` reads. -/
structure PlyProperty where
  name : String
  isList : Bool
  listCount : Nat
  deriving DecidableEq, Repr

/-- The fields of `tinyply::PlyElement` that `read_ply` reads. -/
structure PlyElement where
  name : String
  properties : List PlyProperty
  deriving DecidableEq, Repr

/-- The fields of `tinyply::PlyData` that `read_ply` reads: the type `t`, the row count
`count` and the bytes of `buffer` (`buffer.size_bytes()` is their number). -/
structure PlyData where
  t : StorageType
  count : Nat
  buffer : List byte
  deriving DecidableEq, Repr

/-- The engine behind the local `PlyFile file` of `read_ply`, which lives in `tinyply.h`: an
abstract state machine with state `σ` over streams `F`, handing out handles `H`
(`std::shared_ptr<PlyData>`).  A request returns the handle or throws, and the next state
either way; `data s h` is what the handle designates in state `s` (`none` for a null
pointer). -/
structure PlyFile (F σ H : Type) where
  parse_header : F → Except PlyError σ
  get_elements : σ → List PlyElement
  request_properties_from_element : σ → String → List String → Nat → Except PlyError H × σ
  read : σ → F → Except PlyError σ
  data : σ → H → Option PlyData

/-- The map `requestedData`, keyed by (element name, property name). -/
abbrev RequestedData (H : Type) := String × String → Option H

/-- The assignment `requestedData[key] = dataHandle`. -/
def RequestedData.assign {H : Type} (m : RequestedData H) (key : String × String) (h : H) :
    RequestedData H :=
  fun k => if k = key then some h else m k

/-- The value `list_size_hint` computed at lines 92-97. -/
def list_size_hint (prop : PlyProperty) : Nat :=
  if prop.isList ∧ prop.listCount > 0 then prop.listCount else 0

/-- The body of the inner request loop (lines 87-114) for one property: the request, and
the `catch` that ignores a failed one. -/
def request_property {F σ H : Type} (file : PlyFile F σ H) (elmName : String)
    (st : RequestedData H × σ) (prop : PlyProperty) : RequestedData H × σ :=
  match file.request_properties_from_element st.2 elmName [prop.name] (list_size_hint prop) with
  | (.ok dataHandle, s) => (st.1.assign (elmName, prop.name) dataHandle, s)
  | (.error _, s) => (st.1, s)

/-- The request loops of lines 83-116 over the elements `get_elements()` returned when the
loop started. -/
def request_all {F σ H : Type} (file : PlyFile F σ H) (elements : List PlyElement)
    (st : RequestedData H × σ) : RequestedData H × σ :=
  elements.foldl (fun st elm => elm.properties.foldl (request_property file elm.name) st) st

/-- The conversion of one property (lines 138-200): from the `PlyData` behind its handle to
the NumPy array, or the exception thrown. -/
def marshal_property (prop : PlyProperty) (plyData : PlyData) : Except PlyError array :=
  let count := plyData.count
  let t := plyData.t
  let numBytes := plyData.buffer.length
  let stride := stride t
  if prop.isList ∧ ¬ prop.listCount > 0 then .error (.UnsupportedShape prop.name)
  else
    let list_count := if prop.isList then prop.listCount else 1
    match tinyply_type_to_numpy_dtype t with
    | .error e => .error e
    | .ok npDtype =>
      if list_count = 1 then
        .ok ⟨npDtype, [ssize_t count], [ssize_t stride], plyData.buffer⟩
      else
        let totalCount := size_t (count * list_count)
        let requiredBytes := size_t (totalCount * stride)
        if requiredBytes ≠ numBytes then .error (.ShapeMismatch prop.name)
        else
          .ok ⟨npDtype, [ssize_t count, ssize_t list_count],
            [ssize_t (size_t (list_count * stride)), ssize_t stride], plyData.buffer⟩

/-- The inner conversion loop (lines 127-201) over the properties of the element `elmName`,
updating `propertyDict`. -/
def marshal_properties {F σ H : Type} (file : PlyFile F σ H) (s : σ)
    (requestedData : RequestedData H) (elmName : String) :
    List PlyProperty → PyDict array → Except PlyError (PyDict array)
  | [], propertyDict => .ok propertyDict
  | prop :: rest, propertyDict =>
    match requestedData (elmName, prop.name) with
    | none => marshal_properties file s requestedData elmName rest propertyDict
    | some dataHandle =>
      match file.data s dataHandle with
      | none => marshal_properties file s requestedData elmName rest propertyDict
      | some plyData =>
        match marshal_property prop plyData with
        | .error e => .error e
        | .ok a =>
          marshal_properties file s requestedData elmName rest
            (propertyDict.setitem prop.name a)

/-- The outer conversion loop (lines 124-206) over the elements, updating `rootDict`. -/
def marshal_elements {F σ H : Type} (file : PlyFile F σ H) (s : σ)
    (requestedData : RequestedData H) :
    List PlyElement → PyDict (PyDict array) → Except PlyError (PyDict (PyDict array))
  | [], rootDict => .ok rootDict
  | elm :: rest, rootDict =>
    match marshal_properties file s requestedData elm.name elm.properties [] with
    | .error e => .error e
    | .ok propertyDict =>
      if propertyDict.length > 0 then
        marshal_elements file s requestedData rest (rootDict.setitem elm.name propertyDict)
      else
        marshal_elements file s requestedData rest rootDict

/-- The function `read_ply` (lines 62-209).  `fopen filename` is the stream of the file, or
`none` when it cannot be opened. -/
def read_ply {F σ H : Type} (fopen : String → Option F) (file : PlyFile F σ H)
    (filename : String) : Except PlyError (PyDict (PyDict array)) :=
  match fopen filename with
  | none => .error (.OpenFailed filename)
  | some file_stream =>
    match file.parse_header file_stream with
    | .error e => .error e
    | .ok s0 =>
      let planned := request_all file (file.get_elements s0) (fun _ => none, s0)
      match file.read planned.2 file_stream with
      | .error e => .error e
      | .ok s2 => marshal_elements file s2 planned.1 (file.get_elements s2) []

/-! ## A faithful engine, for the round trip -/

/-- Modelled from the spec: the engine operation `declareProperty` followed by `parseHeader`
(section 6; `PlyFile::add_properties_to_element` and the header of the written file, in
`tinyply.h`, are not among the sources).  A declared property joins the element of its name,
in declaration order, or opens a new element; it is a list property exactly when a list-length
type was declared, and then carries the declared fixed list length. -/
def declare_property (elements : List PlyElement) (c : AddedProperty) : List PlyElement :=
  let props : List PlyProperty :=
    c.propertyKeys.map (fun key => ⟨key, decide (c.listType ≠ .INVALID), c.listCount⟩)
  match elements with
  | [] => [⟨c.elementKey, props⟩]
  | e :: rest =>
    if e.name = c.elementKey then ⟨e.name, e.properties ++ props⟩ :: rest
    else e :: declare_property rest c

/-- Modelled from the spec: the DataBuffer of a declared property (section 3), "a contiguous
byte run of length rowCount * effectiveListLength * storageStride, plus the StorageType and
rowCount", read from the declared data view. -/
def data_buffer (c : AddedProperty) : PlyData :=
  let effectiveListLength := if c.listType = .INVALID then 1 else c.listCount
  ⟨c.type, c.count, c.data.take (c.count * effectiveListLength * stride c.type)⟩

/-- Modelled from the spec: an engine "that faithfully stores and returns the declared
properties" (sections 6 and 8).  The written file is the declared schema with its data;
`parseHeader` returns the declared elements, `requestProperty` fails for a property that was
not declared and otherwise hands out its DataBuffer, `readAll` succeeds. -/
def faithful_engine : PlyFile PlyFileDecl PlyFileDecl PlyData where
  parse_header := fun stream => .ok stream
  get_elements := fun s => s.added.foldl declare_property []
  request_properties_from_element := fun s elementKey propertyKeys _ =>
    match s.added.find? (fun c => c.elementKey = elementKey ∧ c.propertyKeys = propertyKeys) with
    | some c => (.ok (data_buffer c), s)
    | none => (.error (.Engine "the property keys were not found in the header"), s)
  read := fun s _ => .ok s
  data := fun _ h => some h

/-- Modelled from the spec: the write side of the faithful engine: `fb.open` succeeds and
`writeAll` does not fail. -/
def faithful_env : WriteEnv where
  fopen_ok := fun _ _ => true
  engine_write := fun _ _ => .ok ()

/-- Modelled from the spec: the files that exist after `write_ply` performed `effects` with the
faithful engine: the file it opened, holding what the engine was given to write. -/
def written_files (effects : List Effect) : String → Option PlyFileDecl :=
  fun name =>
    match effects with
    | [.fopen filename _, .engine_write plyFile _] => if name = filename then some plyFile else none
    | _ => none

/-- A NumPy array as the caller of `write_ply` holds it and as the caller of `read_ply` gets it:
`view` is what the accessors of `py::array` give (kind and item size of the dtype, shape,
strides, the memory from `data()` on), and `isnative` is `dtype.isnative`, the byte order of the
dtype, which the source never reads. -/
structure ndarray where
  view : array
  isnative : Bool
  deriving DecidableEq, Repr

/-- The NumPy array that `read_ply` returns when it builds `py::array` from the arguments `a`:
the dtypes made at lines 44-51 (`dtype::of<float>()`, `dtype("int8")`, ...) are of native byte
order. -/
def built (a : array) : ndarray := ⟨a, true⟩

/-- The strides of a C-contiguous (row-major, gap-free) array of rank 1 or 2: the item size for
the last dimension, and a whole row for the first. -/
def c_strides (shape : List Int) (itemsize : Nat) : List Int :=
  match shape with
  | [_] => [(itemsize : Int)]
  | [_, d1] => [d1 * (itemsize : Int), (itemsize : Int)]
  | _ => []

/-- A C-contiguous array of rank 1 or 2: its strides are the row-major ones and the memory at
`data()` is exactly its elements in row-major order, `size * itemsize` bytes. -/
def c_contiguous (a : array) : Prop :=
  a.strides = c_strides a.shape a.dtype.itemsize ∧
  a.data.length = (a.shape.map Int.toNat).prod * a.dtype.itemsize

/-- The round trip of section 8: `write_ply` of a mapping to `filename`, then `read_ply` of
that file, both with the faithful engine. -/
def round_trip (filename : String) (pyDict : PyDict (PyDict array)) (isBinary : Bool) :
    Except PlyError (PyDict (PyDict array)) :=
  match write_ply faithful_env filename pyDict isBinary with
  | (effects, .ok ()) => read_ply (written_files effects) faithful_engine filename
  | (_, .error e) => .error e

/-! ## Statement helpers -/

/-- The arrays of an input mapping with their element and property names, in the iteration
order of `write_ply`: elements in order, and within an element its properties in order. -/
def items_in_order (pyDict : PyDict (PyDict array)) : List (String × String × array) :=
  pyDict.flatMap (fun item => item.2.map (fun propItem => (item.1, propItem.1, propItem.2)))

/-- An array that `write_ply` rejects: its rank is neither 1 nor 2, or its dtype is not one of
the seven supported ones. -/
def rejected (a : array) : Prop :=
  (a.shape.length ≠ 1 ∧ a.shape.length ≠ 2) ∨ a.dtype ∉ supportedDtypes

instance (a : array) : Decidable (rejected a) := by
  unfold rejected
  infer_instance

/-- An engine with a fixed header and fixed property contents, for stating examples: the
header lists `elements`, a request for a property that has an entry in `contents` hands out
that data and any other request throws, and `read` succeeds. -/
def fixed_engine (elements : List PlyElement) (contents : List ((String × String) × PlyData)) :
    PlyFile Unit Unit PlyData where
  parse_header := fun _ => .ok ()
  get_elements := fun _ => elements
  request_properties_from_element := fun s elementKey propertyKeys _ =>
    match propertyKeys with
    | [propertyKey] =>
      match contents.lookup (elementKey, propertyKey) with
      | some plyData => (.ok plyData, s)
      | none => (.error (.Engine "the property keys were not found in the header"), s)
    | _ => (.error (.Engine "the property keys were not found in the header"), s)
  read := fun s _ => .ok s
  data := fun _ h => some h

/-- The header `elements` with every property named `propName` of every element named `elmName`
taken out. -/
def drop_property (elmName propName : String) (elements : List PlyElement) : List PlyElement :=
  elements.map (fun elm =>
    if elm.name = elmName then ⟨elm.name, elm.properties.filter (fun q => q.name ≠ propName)⟩
    else elm)

/-- The engine `file` seen through a header without the property: `get_elements()` lists the
elements with that property taken out, everything else is the engine's. -/
def without_property {F σ H : Type} (file : PlyFile F σ H) (elmName propName : String) :
    PlyFile F σ H where
  parse_header := file.parse_header
  get_elements := fun s => drop_property elmName propName (file.get_elements s)
  request_properties_from_element := file.request_properties_from_element
  read := file.read
  data := file.data

/-- The exceptions of the conversion of one property: those of lines 157, 55 (through line
164) and 184. -/
def marshal_error (err : PlyError) : Prop :=
  (∃ q, err = .UnsupportedShape q) ∨ err = .UnsupportedType ∨ (∃ q, err = .ShapeMismatch q)

/-! # Theorems -/

/-! ## TypeMap -/

/-- The two mapping functions determine each other: one returns `t` on `d` exactly when the
other returns `d` on `t`. -/
theorem dtype_to_type_ok_iff (d : dtype) (t : StorageType) :
    numpy_dtype_to_tinyply_type d = .ok t ↔ tinyply_type_to_numpy_dtype t = .ok d := by
  obtain ⟨k, w⟩ := d
  constructor
  · intro h
    simp only [numpy_dtype_to_tinyply_type] at h
    split_ifs at h with h1 h2 h3 h4 h5 h6 h7 <;> cases h <;>
      simp_all [tinyply_type_to_numpy_dtype]
  · intro h
    cases t <;> simp [tinyply_type_to_numpy_dtype] at h <;> obtain ⟨rfl, rfl⟩ := h <;>
      simp [numpy_dtype_to_tinyply_type]

/-- The dtype of a supported storage type has the stride of the type as its item size. -/
theorem itemsize_eq_stride (t : StorageType) (d : dtype)
    (h : tinyply_type_to_numpy_dtype t = .ok d) : d.itemsize = stride t := by
  cases t <;> simp [tinyply_type_to_numpy_dtype] at h <;> subst h <;> rfl

/-- The exception of `numpy_dtype_to_tinyply_type` is raised exactly outside the seven
supported pairs. -/
theorem dtype_error_iff (d : dtype) :
    numpy_dtype_to_tinyply_type d = .error .UnsupportedDtype ↔ d ∉ supportedDtypes := by
  obtain ⟨k, w⟩ := d
  simp only [numpy_dtype_to_tinyply_type, supportedDtypes]
  split_ifs with h1 h2 h3 h4 h5 h6 h7 <;> simp_all

/-- The function `numpy_dtype_to_tinyply_type` raises one exception only. -/
theorem dtype_error_kind (d : dtype) (e : PlyError)
    (h : numpy_dtype_to_tinyply_type d = .error e) : e = .UnsupportedDtype := by
  obtain ⟨k, w⟩ := d
  simp only [numpy_dtype_to_tinyply_type] at h
  split_ifs at h
  all_goals cases h
  rfl

/-- C1. On the seven supported pairs (f,4), (i,1), (u,1), (i,2), (u,2), (i,4), (u,4) and the
seven supported storage types, `numpy_dtype_to_tinyply_type` and `tinyply_type_to_numpy_dtype`
are mutually inverse: each supported pair maps to a supported type that maps back to the pair,
each supported type maps to a supported pair that maps back to the type, and
`numpy_dtype_to_tinyply_type` is injective on the supported pairs. -/
theorem typemap_mutually_inverse :
    (∀ d ∈ supportedDtypes, ∃ t ∈ supportedTypes,
        numpy_dtype_to_tinyply_type d = .ok t ∧ tinyply_type_to_numpy_dtype t = .ok d) ∧
    (∀ t ∈ supportedTypes, ∃ d ∈ supportedDtypes,
        tinyply_type_to_numpy_dtype t = .ok d ∧ numpy_dtype_to_tinyply_type d = .ok t) ∧
    (∀ d₁ ∈ supportedDtypes, ∀ d₂ ∈ supportedDtypes,
        numpy_dtype_to_tinyply_type d₁ = numpy_dtype_to_tinyply_type d₂ → d₁ = d₂) := by
  refine ⟨?_, ?_, ?_⟩ <;>
    simp [supportedDtypes, supportedTypes, numpy_dtype_to_tinyply_type,
      tinyply_type_to_numpy_dtype]

/-- C1, at the pair (u,4) and the type UINT32. -/
theorem typemap_mutually_inverse_witness :
    (∃ t ∈ supportedTypes, numpy_dtype_to_tinyply_type ⟨'u', 4⟩ = .ok t ∧
        tinyply_type_to_numpy_dtype t = .ok ⟨'u', 4⟩) ∧
    (∃ d ∈ supportedDtypes, tinyply_type_to_numpy_dtype .UINT32 = .ok d ∧
        numpy_dtype_to_tinyply_type d = .ok .UINT32) :=
  ⟨typemap_mutually_inverse.1 ⟨'u', 4⟩ (by decide),
    typemap_mutually_inverse.2.1 .UINT32 (by decide)⟩

/-- C2. `numpy_dtype_to_tinyply_type` raises (its one exception, UnsupportedType) exactly when
the (kind, itemsize) pair is not one of the seven supported pairs, in particular for every
8-byte dtype, and never returns INVALID; `tinyply_type_to_numpy_dtype` raises UnsupportedType
for INVALID and exactly for the storage types other than the seven supported ones. -/
theorem typemap_fails_exactly_outside_supported :
    (∀ d : dtype, numpy_dtype_to_tinyply_type d = .error .UnsupportedDtype ↔
        d ∉ supportedDtypes) ∧
    (∀ (d : dtype) (e : PlyError), numpy_dtype_to_tinyply_type d = .error e →
        e = .UnsupportedDtype) ∧
    (∀ kind : Char, numpy_dtype_to_tinyply_type ⟨kind, 8⟩ = .error .UnsupportedDtype) ∧
    (∀ d : dtype, numpy_dtype_to_tinyply_type d ≠ .ok .INVALID) ∧
    tinyply_type_to_numpy_dtype .INVALID = .error .UnsupportedType ∧
    (∀ t : StorageType, tinyply_type_to_numpy_dtype t = .error .UnsupportedType ↔
        t ∉ supportedTypes) := by
  refine ⟨dtype_error_iff, dtype_error_kind, ?_, ?_, rfl, ?_⟩
  · intro kind
    simp [numpy_dtype_to_tinyply_type]
  · intro d h
    have := (dtype_to_type_ok_iff d .INVALID).1 h
    simp [tinyply_type_to_numpy_dtype] at this
  · intro t
    cases t <;> simp [tinyply_type_to_numpy_dtype, supportedTypes]

/-- C2, at the 8-byte float dtype and at FLOAT64. -/
theorem typemap_fails_exactly_outside_supported_witness :
    numpy_dtype_to_tinyply_type ⟨'f', 8⟩ = .error .UnsupportedDtype ∧
    tinyply_type_to_numpy_dtype .FLOAT64 = .error .UnsupportedType :=
  ⟨(typemap_fails_exactly_outside_supported.1 ⟨'f', 8⟩).2 (by decide),
    (typemap_fails_exactly_outside_supported.2.2.2.2.2 .FLOAT64).2 (by decide)⟩

/-! ## write_ply -/

/-- A non-negative `py::ssize_t` converts to the same `size_t`. -/
theorem ssize_to_size_t_natCast (n : Nat) (h : n < 2 ^ 63) : ssize_to_size_t (n : Int) = n := by
  unfold ssize_to_size_t
  have h2 : ((n : Int)) % 2 ^ 64 = (n : Int) := by
    apply Int.emod_eq_of_lt
    · exact Int.natCast_nonneg n
    · have : (n : Int) < 2 ^ 63 := by exact_mod_cast h
      omega
  rw [h2]
  exact Int.toNat_natCast n

/-- A dtype is supported exactly when `numpy_dtype_to_tinyply_type` returns a type for it. -/
theorem supported_iff_ok (d : dtype) :
    d ∈ supportedDtypes ↔ ∃ t, numpy_dtype_to_tinyply_type d = .ok t := by
  obtain ⟨k, w⟩ := d
  simp only [numpy_dtype_to_tinyply_type, supportedDtypes]
  split_ifs with h1 h2 h3 h4 h5 h6 h7 <;> simp_all

/-- The only exceptions of the loop body of `write_ply` are the rank and the dtype one. -/
theorem add_array_error_kind (e p : String) (a : array) (err : PlyError)
    (h : add_array e p a = .error err) : err = .UnsupportedRank ∨ err = .UnsupportedDtype := by
  unfold add_array at h
  have hd := dtype_error_kind a.dtype
  rcases hs : a.shape with _ | ⟨d0, _ | ⟨d1, _ | ⟨d2, r⟩⟩⟩ <;> simp only [hs] at h
  · left; cases h; rfl
  · cases hn : numpy_dtype_to_tinyply_type a.dtype with
    | error e2 => rw [hn] at h; simp at h; right; rw [← h]; exact hd e2 hn
    | ok t => rw [hn] at h; simp at h
  · cases hn : numpy_dtype_to_tinyply_type a.dtype with
    | error e2 => rw [hn] at h; simp at h; right; rw [← h]; exact hd e2 hn
    | ok t => rw [hn] at h; simp at h; split_ifs at h
  · left; cases h; rfl

/-- The loop body of `write_ply` throws on a rejected array. -/
theorem add_array_rejected (e p : String) (a : array) (h : rejected a) :
    ∃ err, add_array e p a = .error err := by
  unfold add_array
  rcases hs : a.shape with _ | ⟨d0, _ | ⟨d1, _ | ⟨d2, r⟩⟩⟩
  · exact ⟨_, rfl⟩
  · have hd : a.dtype ∉ supportedDtypes := by
      rcases h with h | h
      · simp [hs] at h
      · exact h
    have := (dtype_error_iff a.dtype).2 hd
    simp [this]
  · have hd : a.dtype ∉ supportedDtypes := by
      rcases h with h | h
      · simp [hs] at h
      · exact h
    have := (dtype_error_iff a.dtype).2 hd
    simp [this]
  · exact ⟨_, rfl⟩

/-- The inner loop of `write_ply` throws when one of the arrays is rejected. -/
theorem add_properties_rejected (e : String) (props : List (String × array))
    (h : ∃ propItem ∈ props, rejected propItem.2) (plyFile : PlyFileDecl) :
    ∃ err, add_properties e props plyFile = .error err ∧
      (err = .UnsupportedRank ∨ err = .UnsupportedDtype) := by
  induction props generalizing plyFile with
  | nil => simp at h
  | cons pa rest ih =>
    obtain ⟨p, a⟩ := pa
    simp only [add_properties]
    cases hc : add_array e p a with
    | error err => exact ⟨err, rfl, add_array_error_kind e p a err hc⟩
    | ok c =>
      simp only
      apply ih
      obtain ⟨q, hq, hr⟩ := h
      rcases List.mem_cons.1 hq with rfl | hq
      · obtain ⟨err, herr⟩ := add_array_rejected e p a hr
        rw [hc] at herr
        cases herr
      · exact ⟨q, hq, hr⟩

/-- The only exceptions of the inner loop of `write_ply` are the rank and the dtype one. -/
theorem add_properties_error_kind (e : String) (props : List (String × array))
    (plyFile : PlyFileDecl) (err : PlyError) (h : add_properties e props plyFile = .error err) :
    err = .UnsupportedRank ∨ err = .UnsupportedDtype := by
  induction props generalizing plyFile with
  | nil => simp [add_properties] at h
  | cons pa rest ih =>
    obtain ⟨p, a⟩ := pa
    simp only [add_properties] at h
    cases hc : add_array e p a with
    | error err2 =>
      rw [hc] at h
      simp at h
      rw [← h]
      exact add_array_error_kind e p a err2 hc
    | ok c =>
      rw [hc] at h
      exact ih _ h

/-- The loops of `write_ply` throw when one of the arrays of the mapping is rejected. -/
theorem add_elements_rejected (pyDict : PyDict (PyDict array))
    (h : ∃ item ∈ pyDict, ∃ propItem ∈ item.2, rejected propItem.2) (plyFile : PlyFileDecl) :
    ∃ err, add_elements pyDict plyFile = .error err ∧
      (err = .UnsupportedRank ∨ err = .UnsupportedDtype) := by
  induction pyDict generalizing plyFile with
  | nil => simp at h
  | cons item rest ih =>
    obtain ⟨e, props⟩ := item
    simp only [add_elements]
    cases hc : add_properties e props plyFile with
    | error err => exact ⟨err, rfl, add_properties_error_kind e props plyFile err hc⟩
    | ok f1 =>
      simp only
      apply ih
      obtain ⟨it, hit, hr⟩ := h
      rcases List.mem_cons.1 hit with rfl | hit
      · obtain ⟨err, herr, _⟩ := add_properties_rejected e props hr plyFile
        rw [hc] at herr
        cases herr
      · exact ⟨it, hit, hr⟩

/-- C10. `write_ply` runs its checks on every array of every element before it opens the output
path: when some array of the mapping has a rank outside 1 and 2 or an unsupported dtype, the
call fails with the rank or the dtype exception and has performed no effect at all: no
`fb.open` (so the file is neither created nor truncated) and no engine `write`, however many
valid properties precede the bad one and whatever the file system and the engine would do. -/
theorem write_ply_validates_before_open (env : WriteEnv) (filename : String)
    (pyDict : PyDict (PyDict array)) (isBinary : Bool)
    (h : ∃ item ∈ pyDict, ∃ propItem ∈ item.2, rejected propItem.2) :
    (write_ply env filename pyDict isBinary).1 = [] ∧
    ((write_ply env filename pyDict isBinary).2 = .error .UnsupportedRank ∨
      (write_ply env filename pyDict isBinary).2 = .error .UnsupportedDtype) := by
  obtain ⟨err, herr, hk⟩ := add_elements_rejected pyDict h ⟨[], []⟩
  simp only [write_ply, herr]
  rcases hk with rfl | rfl <;> simp

/-- C10, on a mapping whose third array, after two valid ones, is 3-dimensional, with a file
system and an engine that would accept the write. -/
theorem write_ply_validates_before_open_witness :
    (write_ply faithful_env "out.ply"
      [("vertex", [("x", ⟨⟨'f', 4⟩, [1], [4], [0, 0, 128, 63]⟩),
                   ("y", ⟨⟨'f', 4⟩, [1], [4], [0, 0, 0, 64]⟩)]),
       ("face", [("vertex_indices", ⟨⟨'u', 4⟩, [0, 3, 1], [12, 4, 4], []⟩)])] true).1 = [] ∧
    ((write_ply faithful_env "out.ply"
      [("vertex", [("x", ⟨⟨'f', 4⟩, [1], [4], [0, 0, 128, 63]⟩),
                   ("y", ⟨⟨'f', 4⟩, [1], [4], [0, 0, 0, 64]⟩)]),
       ("face", [("vertex_indices", ⟨⟨'u', 4⟩, [0, 3, 1], [12, 4, 4], []⟩)])] true).2
        = .error .UnsupportedRank ∨
     (write_ply faithful_env "out.ply"
      [("vertex", [("x", ⟨⟨'f', 4⟩, [1], [4], [0, 0, 128, 63]⟩),
                   ("y", ⟨⟨'f', 4⟩, [1], [4], [0, 0, 0, 64]⟩)]),
       ("face", [("vertex_indices", ⟨⟨'u', 4⟩, [0, 3, 1], [12, 4, 4], []⟩)])] true).2
        = .error .UnsupportedDtype) :=
  write_ply_validates_before_open faithful_env "out.ply" _ true
    ⟨("face", [("vertex_indices", ⟨⟨'u', 4⟩, [0, 3, 1], [12, 4, 4], []⟩)]), by simp,
      ("vertex_indices", ⟨⟨'u', 4⟩, [0, 3, 1], [12, 4, 4], []⟩), by simp, by decide⟩

/-- A list related elementwise to a concatenation splits accordingly. -/
theorem forall₂_append_split {α β : Type} (R : α → β → Prop) (l₁ l₂ : List α) (cs : List β) :
    List.Forall₂ R (l₁ ++ l₂) cs ↔
      ∃ c₁ c₂, List.Forall₂ R l₁ c₁ ∧ List.Forall₂ R l₂ c₂ ∧ cs = c₁ ++ c₂ := by
  induction l₁ generalizing cs with
  | nil =>
    constructor
    · intro h
      exact ⟨[], cs, List.Forall₂.nil, h, rfl⟩
    · rintro ⟨c₁, c₂, h₁, h₂, rfl⟩
      cases h₁
      exact h₂
  | cons a l ih =>
    constructor
    · intro h
      cases h with
      | cons hab hrest =>
        obtain ⟨c₁, c₂, h₁, h₂, rfl⟩ := (ih _).1 hrest
        exact ⟨_ :: c₁, c₂, List.Forall₂.cons hab h₁, h₂, rfl⟩
    · rintro ⟨c₁, c₂, h₁, h₂, rfl⟩
      cases h₁ with
      | cons hab hrest => exact List.Forall₂.cons hab ((ih _).2 ⟨_, c₂, hrest, h₂, rfl⟩)

/-- The inner loop of `write_ply` succeeds exactly when every array of the element converts,
and then has appended the converted properties in order. -/
theorem add_properties_ok_iff (e : String) (props : List (String × array))
    (plyFile0 plyFile : PlyFileDecl) :
    add_properties e props plyFile0 = .ok plyFile ↔
      ∃ cs, List.Forall₂ (fun it c => add_array it.1 it.2.1 it.2.2 = .ok c)
          (props.map (fun propItem => (e, propItem.1, propItem.2))) cs ∧
        plyFile = ⟨plyFile0.added ++ cs, plyFile0.comments⟩ := by
  induction props generalizing plyFile0 with
  | nil =>
    simp only [add_properties, List.map_nil, List.forall₂_nil_left_iff]
    constructor
    · intro h
      cases h
      exact ⟨[], rfl, by simp⟩
    · rintro ⟨cs, rfl, rfl⟩
      simp
  | cons pa rest ih =>
    obtain ⟨p, a⟩ := pa
    simp only [add_properties, List.map_cons]
    cases hc : add_array e p a with
    | error err =>
      simp only [false_iff, not_exists, not_and, reduceCtorEq]
      intro cs h
      cases h with
      | cons hab _ => rw [hc] at hab; cases hab
    | ok c =>
      simp only
      rw [ih]
      constructor
      · rintro ⟨cs, h, rfl⟩
        exact ⟨c :: cs, List.Forall₂.cons hc h, by simp⟩
      · rintro ⟨cs, h, rfl⟩
        cases h with
        | cons hab hrest =>
          rw [hc] at hab
          cases hab
          exact ⟨_, hrest, by simp⟩

/-- The loops of `write_ply` succeed exactly when every array of the mapping converts, and then
have appended the converted properties in iteration order. -/
theorem add_elements_ok_iff (pyDict : PyDict (PyDict array)) (plyFile0 plyFile : PlyFileDecl) :
    add_elements pyDict plyFile0 = .ok plyFile ↔
      ∃ cs, List.Forall₂ (fun it c => add_array it.1 it.2.1 it.2.2 = .ok c)
          (items_in_order pyDict) cs ∧
        plyFile = ⟨plyFile0.added ++ cs, plyFile0.comments⟩ := by
  induction pyDict generalizing plyFile0 with
  | nil =>
    simp only [add_elements, items_in_order, List.flatMap_nil, List.forall₂_nil_left_iff]
    constructor
    · intro h
      cases h
      exact ⟨[], rfl, by simp⟩
    · rintro ⟨cs, rfl, rfl⟩
      simp
  | cons item rest ih =>
    obtain ⟨e, props⟩ := item
    have hitems : items_in_order ((e, props) :: rest) =
        props.map (fun propItem => (e, propItem.1, propItem.2)) ++ items_in_order rest := by
      simp [items_in_order]
    rw [hitems]
    simp only [add_elements]
    cases hc : add_properties e props plyFile0 with
    | error err =>
      simp only [false_iff, not_exists, not_and, reduceCtorEq]
      intro cs h
      obtain ⟨c₁, c₂, h₁, _, _⟩ := (forall₂_append_split _ _ _ _).1 h
      have := (add_properties_ok_iff e props plyFile0 ⟨plyFile0.added ++ c₁, plyFile0.comments⟩).2
        ⟨c₁, h₁, rfl⟩
      rw [hc] at this
      cases this
    | ok f1 =>
      simp only
      obtain ⟨c₁, h₁, rfl⟩ := (add_properties_ok_iff e props plyFile0 f1).1 hc
      rw [ih]
      constructor
      · rintro ⟨cs, h, rfl⟩
        exact ⟨c₁ ++ cs, (forall₂_append_split _ _ _ _).2 ⟨c₁, cs, h₁, h, rfl⟩, by simp⟩
      · rintro ⟨cs, h, rfl⟩
        obtain ⟨d₁, d₂, g₁, g₂, rfl⟩ := (forall₂_append_split _ _ _ _).1 h
        have hd : d₁ = c₁ := by
          have e1 := (add_properties_ok_iff e props plyFile0
            ⟨plyFile0.added ++ d₁, plyFile0.comments⟩).2 ⟨d₁, g₁, rfl⟩
          rw [hc] at e1
          simp at e1
          exact e1.symm
        subst hd
        exact ⟨d₂, g₂, by simp⟩
/-- The loop body of `write_ply` on a 1-dimensional array of supported dtype. -/
theorem add_array_rank1 (e p : String) (a : array) (count : Nat) (plyType : StorageType)
    (hs : a.shape = [(count : Int)]) (hc : count < 2 ^ 63)
    (hT : numpy_dtype_to_tinyply_type a.dtype = .ok plyType) :
    add_array e p a = .ok ⟨e, [p], plyType, count, a.data, .INVALID, 0⟩ := by
  simp [add_array, hs, hT, ssize_to_size_t_natCast count hc]

/-- The loop body of `write_ply` on a 2-dimensional array of supported dtype. -/
theorem add_array_rank2 (e p : String) (a : array) (count listLength : Nat)
    (plyType : StorageType) (hs : a.shape = [(count : Int), (listLength : Int)])
    (hc : count < 2 ^ 63) (hl : listLength < 2 ^ 63)
    (hT : numpy_dtype_to_tinyply_type a.dtype = .ok plyType) :
    add_array e p a =
      if listLength = 1 then .ok ⟨e, [p], plyType, count, a.data, .INVALID, 0⟩
      else .ok ⟨e, [p], plyType, count, a.data, .UINT8, listLength % 2 ^ 32⟩ := by
  simp only [add_array, hs, hT, ssize_to_size_t_natCast count hc,
    ssize_to_size_t_natCast listLength hl, uint32_t]

/-- C8, as amended. For every input array the loop body of `write_ply` fails with the rank
exception when the rank is not 1 or 2; otherwise, for a supported dtype mapped to `plyType`, it
makes exactly one `add_properties_to_element` call under the given element and property name
with `plyType`, `count = dim0` and the array's bytes: a scalar property (list type INVALID, list
count 0) for rank 1 and for shape (count, 1), and for shape (count, listLength) with
`listLength` other than 1 a list property with list-length type UINT8 and list count
`listLength mod 2^32` (the source casts it to `uint32_t`), which is `listLength` itself below
2^32.  The calls reach the engine in the iteration order of the input mapping, one per array. -/
theorem write_ply_schema_inference (elementName propertyName : String) (a : array) :
    ((a.shape.length ≠ 1 ∧ a.shape.length ≠ 2) →
        add_array elementName propertyName a = .error .UnsupportedRank) ∧
    (∀ (count : Nat) (plyType : StorageType), a.shape = [(count : Int)] → count < 2 ^ 63 →
        numpy_dtype_to_tinyply_type a.dtype = .ok plyType →
        add_array elementName propertyName a =
          .ok ⟨elementName, [propertyName], plyType, count, a.data, .INVALID, 0⟩) ∧
    (∀ (count listLength : Nat) (plyType : StorageType),
        a.shape = [(count : Int), (listLength : Int)] → count < 2 ^ 63 → listLength < 2 ^ 63 →
        numpy_dtype_to_tinyply_type a.dtype = .ok plyType →
        (listLength = 1 → add_array elementName propertyName a =
          .ok ⟨elementName, [propertyName], plyType, count, a.data, .INVALID, 0⟩) ∧
        (listLength ≠ 1 → add_array elementName propertyName a =
          .ok ⟨elementName, [propertyName], plyType, count, a.data, .UINT8,
            listLength % 2 ^ 32⟩) ∧
        (1 < listLength → listLength < 2 ^ 32 → add_array elementName propertyName a =
          .ok ⟨elementName, [propertyName], plyType, count, a.data, .UINT8, listLength⟩)) ∧
    (∀ (pyDict : PyDict (PyDict array)) (plyFile0 plyFile : PlyFileDecl),
        add_elements pyDict plyFile0 = .ok plyFile ↔
          ∃ cs, List.Forall₂ (fun it c => add_array it.1 it.2.1 it.2.2 = .ok c)
              (items_in_order pyDict) cs ∧
            plyFile = ⟨plyFile0.added ++ cs, plyFile0.comments⟩) ∧
    (∀ (env : WriteEnv) (filename : String) (pyDict : PyDict (PyDict array)) (isBinary : Bool)
        (cs : List AddedProperty),
        List.Forall₂ (fun it c => add_array it.1 it.2.1 it.2.2 = .ok c)
          (items_in_order pyDict) cs →
        env.fopen_ok filename isBinary = true →
        (write_ply env filename pyDict isBinary).1 =
          [.fopen filename isBinary,
           .engine_write ⟨cs, ["Generated by tinyplypy"]⟩ isBinary]) := by
  refine ⟨?_, ?_, ?_, add_elements_ok_iff, ?_⟩
  · rintro ⟨h1, h2⟩
    unfold add_array
    rcases hs : a.shape with _ | ⟨d0, _ | ⟨d1, _ | ⟨d2, r⟩⟩⟩
    · rfl
    · simp [hs] at h1
    · simp [hs] at h2
    · rfl
  · intro count plyType hs hc hT
    exact add_array_rank1 elementName propertyName a count plyType hs hc hT
  · intro count listLength plyType hs hc hl hT
    have h := add_array_rank2 elementName propertyName a count listLength plyType hs hc hl hT
    refine ⟨?_, ?_, ?_⟩
    · intro h1
      rw [h, if_pos h1]
    · intro h1
      rw [h, if_neg h1]
    · intro h1 h2
      rw [h, if_neg (by omega), Nat.mod_eq_of_lt h2]
  · intro env filename pyDict isBinary cs hcs hopen
    have h := (add_elements_ok_iff pyDict ⟨[], []⟩ ⟨cs, []⟩).2 ⟨cs, hcs, by simp⟩
    simp [write_ply, h, hopen]

/-- C8, as amended, on the (2,3) uint32 array of the face scenario. -/
theorem write_ply_schema_inference_witness :
    add_array "face" "vertex_indices"
        ⟨⟨'u', 4⟩, [2, 3], [12, 4], [0,0,0,0, 1,0,0,0, 2,0,0,0, 2,0,0,0, 3,0,0,0, 0,0,0,0]⟩ =
      .ok ⟨"face", ["vertex_indices"], .UINT32, 2,
        [0,0,0,0, 1,0,0,0, 2,0,0,0, 2,0,0,0, 3,0,0,0, 0,0,0,0], .UINT8, 3⟩ :=
  ((write_ply_schema_inference "face" "vertex_indices"
      ⟨⟨'u', 4⟩, [2, 3], [12, 4], [0,0,0,0, 1,0,0,0, 2,0,0,0, 2,0,0,0, 3,0,0,0, 0,0,0,0]⟩).2.2.1
    2 3 .UINT32 rfl (by decide) (by decide) rfl).2.2 (by decide) (by decide)

/-- C8, refuted as stated: for the uint8 array of shape (0, 4294967296) `write_ply` registers a
list property with list-length type UINT8 and list count 0, not 4294967296. -/
theorem write_ply_list_count_wraps :
    write_ply faithful_env "out.ply"
        [("face", [("vertex_indices", ⟨⟨'u', 1⟩, [0, 4294967296], [4294967296, 1], []⟩)])] true =
      ([.fopen "out.ply" true,
        .engine_write ⟨[⟨"face", ["vertex_indices"], .UINT8, 0, [], .UINT8, 0⟩],
          ["Generated by tinyplypy"]⟩ true], .ok ()) ∧
    (0 : Nat) ≠ 4294967296 :=
  ⟨rfl, by decide⟩

/-- C4, as amended. `write_ply` has no list-length check: for every 2-dimensional array of
supported dtype whose second dimension `listLength` is not 1 (255, 256 and more alike), a
call with that one array opens the file and hands the engine exactly one list property, with
list-length type UINT8 and list count `listLength mod 2^32`; the outcome is that of the
engine's `write`. -/
theorem write_ply_registers_any_list_length (env : WriteEnv) (filename elementName
    propertyName : String) (a : array) (count listLength : Nat) (plyType : StorageType)
    (isBinary : Bool) (hs : a.shape = [(count : Int), (listLength : Int)])
    (hc : count < 2 ^ 63) (hl : listLength < 2 ^ 63) (h1 : listLength ≠ 1)
    (hT : numpy_dtype_to_tinyply_type a.dtype = .ok plyType)
    (hopen : env.fopen_ok filename isBinary = true) :
    write_ply env filename [(elementName, [(propertyName, a)])] isBinary =
      ([.fopen filename isBinary,
        .engine_write ⟨[⟨elementName, [propertyName], plyType, count, a.data, .UINT8,
            listLength % 2 ^ 32⟩], ["Generated by tinyplypy"]⟩ isBinary],
       env.engine_write ⟨[⟨elementName, [propertyName], plyType, count, a.data, .UINT8,
            listLength % 2 ^ 32⟩], ["Generated by tinyplypy"]⟩ isBinary) := by
  have h := add_array_rank2 elementName propertyName a count listLength plyType hs hc hl hT
  rw [if_neg h1] at h
  simp [write_ply, add_elements, add_properties, h, hopen]

/-- C4, as amended, at list length 255: the list property is registered with list count 255. -/
theorem write_ply_registers_any_list_length_witness :
    write_ply faithful_env "out.ply"
        [("face", [("vertex_indices", ⟨⟨'u', 1⟩, [1, 255], [255, 1], List.replicate 255 0⟩)])]
        true =
      ([.fopen "out.ply" true,
        .engine_write ⟨[⟨"face", ["vertex_indices"], .UINT8, 1, List.replicate 255 0, .UINT8,
          255⟩], ["Generated by tinyplypy"]⟩ true], .ok ()) :=
  write_ply_registers_any_list_length faithful_env "out.ply" "face" "vertex_indices"
    ⟨⟨'u', 1⟩, [1, 255], [255, 1], List.replicate 255 0⟩ 1 255 .UINT8 true rfl (by decide)
    (by decide) (by decide) rfl rfl

/-- C4, refuted as stated: for a uint8 array of shape (1, 256) `write_ply` does not fail; it
opens the file and has the engine write a list property with list-length type UINT8 and list
count 256. -/
theorem write_ply_accepts_list_length_256 :
    write_ply faithful_env "out.ply"
        [("face", [("vertex_indices", ⟨⟨'u', 1⟩, [1, 256], [256, 1], List.replicate 256 0⟩)])]
        true =
      ([.fopen "out.ply" true,
        .engine_write ⟨[⟨"face", ["vertex_indices"], .UINT8, 1, List.replicate 256 0, .UINT8,
          256⟩], ["Generated by tinyplypy"]⟩ true], .ok ()) :=
  rfl

/-! ## read_ply: the conversion of one property -/

/-- A size below 2^63 is unchanged by the cast to `py::ssize_t`. -/
theorem ssize_t_of_lt (n : Nat) (h : n < 2 ^ 63) : ssize_t n = (n : Int) := by
  unfold ssize_t
  have h1 : n % 2 ^ 64 = n := Nat.mod_eq_of_lt (by omega)
  rw [h1, if_pos h]

/-- A size below 2^64 is its own `size_t` value. -/
theorem size_t_of_lt (n : Nat) (h : n < 2 ^ 64) : size_t n = n :=
  Nat.mod_eq_of_lt h

/-- The stride of a supported type is at least 1 and at most 4. -/
theorem stride_supported (t : StorageType) (d : dtype)
    (h : tinyply_type_to_numpy_dtype t = .ok d) : 1 ≤ stride t ∧ stride t ≤ 4 := by
  cases t <;> simp [tinyply_type_to_numpy_dtype] at h <;> simp [stride]

/-- The scalar branch of the conversion (lines 165-176): no size check, the buffer is copied
as it is. -/
theorem marshal_property_scalar (prop : PlyProperty) (plyData : PlyData) (d : dtype)
    (hT : tinyply_type_to_numpy_dtype plyData.t = .ok d)
    (h1 : prop.isList = false ∨ (prop.isList = true ∧ prop.listCount = 1)) :
    marshal_property prop plyData =
      .ok ⟨d, [ssize_t plyData.count], [ssize_t (stride plyData.t)], plyData.buffer⟩ := by
  rcases h1 with h | ⟨h, hl⟩
  · simp [marshal_property, h, hT]
  · simp [marshal_property, h, hl, hT]

/-- The fixed-list branch of the conversion (lines 177-200): the size check in `size_t`
arithmetic, then the 2-dimensional array over the copied buffer. -/
theorem marshal_property_list (prop : PlyProperty) (plyData : PlyData) (d : dtype)
    (hT : tinyply_type_to_numpy_dtype plyData.t = .ok d)
    (hlist : prop.isList = true) (hL : 1 < prop.listCount) :
    marshal_property prop plyData =
      if size_t (size_t (plyData.count * prop.listCount) * stride plyData.t)
          ≠ plyData.buffer.length then
        .error (.ShapeMismatch prop.name)
      else
        .ok ⟨d, [ssize_t plyData.count, ssize_t prop.listCount],
          [ssize_t (size_t (prop.listCount * stride plyData.t)), ssize_t (stride plyData.t)],
          plyData.buffer⟩ := by
  have h0 : prop.listCount > 0 := by omega
  have h1 : prop.listCount ≠ 1 := by omega
  simp [marshal_property, hlist, h0, h1, hT]

/-- Without wrap-around the required byte count of line 181 is the product. -/
theorem requiredBytes_of_lt (count L s : Nat) (hs : 1 ≤ s) (h : count * L * s < 2 ^ 64) :
    size_t (size_t (count * L) * s) = count * L * s := by
  have h1 : count * L ≤ count * L * s := Nat.le_mul_of_pos_right _ hs
  rw [size_t_of_lt (count * L) (by omega), size_t_of_lt _ h]

/-- On a file with one property, whose request the engine grants, `read_ply` returns the
conversion of that property under its element and property name, or its exception. -/
theorem read_ply_one_property (e filename : String) (prop : PlyProperty) (plyData : PlyData) :
    read_ply (fun _ => some ()) (fixed_engine [⟨e, [prop]⟩] [((e, prop.name), plyData)])
        filename =
      match marshal_property prop plyData with
      | .ok a => .ok [(e, [(prop.name, a)])]
      | .error err => .error err := by
  simp only [read_ply, fixed_engine, request_all, request_property, List.foldl_cons,
    List.foldl_nil, List.lookup, beq_self_eq_true, marshal_elements, marshal_properties,
    RequestedData.assign, if_true]
  cases marshal_property prop plyData with
  | error err => rfl
  | ok a => simp [PyDict.setitem]

/-- C7. For a requested property whose data has a supported storage type `t` (dtype `d`, stride
`s`) and row count `count`, with sizes in the range of `py::ssize_t`:
(a) a scalar, or a list of fixed length 1, converts to the 1-dimensional array of dtype `d`,
shape (count,), element stride `s`, whose bytes are the engine buffer copied verbatim (so
its first `count * s` bytes are those of the buffer);
(b) a list of fixed length `L > 1` converts successfully exactly when `count * L * s` equals the
byte length of the buffer, and then to the 2-dimensional array of dtype `d`, shape
(count, L), row stride `L * s`, element stride `s`, whose bytes are the engine buffer in the
same (row-major) order; otherwise the conversion fails with ShapeMismatch.
On a file that holds this one property `read_ply` returns that array, alone, under the element
and the property name, or fails with the exception of the conversion. -/
theorem read_ply_marshals_property (prop : PlyProperty) (plyData : PlyData) (d : dtype)
    (hT : tinyply_type_to_numpy_dtype plyData.t = .ok d) (hcount : plyData.count < 2 ^ 63) :
    ((prop.isList = false ∨ (prop.isList = true ∧ prop.listCount = 1)) →
      marshal_property prop plyData =
        .ok ⟨d, [(plyData.count : Int)], [(stride plyData.t : Int)], plyData.buffer⟩ ∧
      (∀ a, marshal_property prop plyData = .ok a →
        a.data.take (plyData.count * stride plyData.t) =
          plyData.buffer.take (plyData.count * stride plyData.t))) ∧
    (∀ L : Nat, prop.isList = true → prop.listCount = L → 1 < L →
      L * stride plyData.t < 2 ^ 63 → plyData.count * L * stride plyData.t < 2 ^ 64 →
      ((∃ a, marshal_property prop plyData = .ok a) ↔
        plyData.count * L * stride plyData.t = plyData.buffer.length) ∧
      (plyData.count * L * stride plyData.t = plyData.buffer.length →
        marshal_property prop plyData =
          .ok ⟨d, [(plyData.count : Int), (L : Int)],
            [((L * stride plyData.t : Nat) : Int), (stride plyData.t : Int)],
            plyData.buffer⟩) ∧
      (plyData.count * L * stride plyData.t ≠ plyData.buffer.length →
        marshal_property prop plyData = .error (.ShapeMismatch prop.name))) ∧
    (∀ elmName filename : String,
      read_ply (fun _ => some ())
          (fixed_engine [⟨elmName, [prop]⟩] [((elmName, prop.name), plyData)]) filename =
        match marshal_property prop plyData with
        | .ok a => .ok [(elmName, [(prop.name, a)])]
        | .error err => .error err) := by
  have hs := stride_supported plyData.t d hT
  have hs63 : stride plyData.t < 2 ^ 63 := by omega
  refine ⟨?_, ?_, fun elmName filename => read_ply_one_property elmName filename prop plyData⟩
  · intro h1
    have h := marshal_property_scalar prop plyData d hT h1
    rw [ssize_t_of_lt _ hcount, ssize_t_of_lt _ hs63] at h
    refine ⟨h, ?_⟩
    intro a ha
    rw [h] at ha
    cases ha
    rfl
  · intro L hlist hL h1 hLs hrange
    subst hL
    have h := marshal_property_list prop plyData d hT hlist h1
    have hL63 : prop.listCount < 2 ^ 63 :=
      lt_of_le_of_lt (Nat.le_mul_of_pos_right _ hs.1) hLs
    rw [requiredBytes_of_lt _ _ _ hs.1 hrange, ssize_t_of_lt _ hcount, ssize_t_of_lt _ hs63,
      ssize_t_of_lt _ hL63, size_t_of_lt _ (by omega), ssize_t_of_lt _ hLs] at h
    refine ⟨?_, ?_, ?_⟩
    · constructor
      · rintro ⟨a, ha⟩
        by_contra hne
        rw [h, if_pos hne] at ha
        cases ha
      · intro heq
        rw [h, if_neg (by simpa using heq)]
        exact ⟨_, rfl⟩
    · intro heq
      rw [h, if_neg (by simpa using heq)]
    · intro hne
      rw [h, if_pos hne]

/-- C7, on a file whose element `face` has the list property `vertex_indices` with 2 rows of 3
uint32 values in a 24-byte buffer. -/
theorem read_ply_marshals_property_witness :
    marshal_property ⟨"vertex_indices", true, 3⟩
        ⟨.UINT32, 2, [0,0,0,0, 1,0,0,0, 2,0,0,0, 2,0,0,0, 3,0,0,0, 0,0,0,0]⟩ =
      .ok ⟨⟨'u', 4⟩, [2, 3], [12, 4],
        [0,0,0,0, 1,0,0,0, 2,0,0,0, 2,0,0,0, 3,0,0,0, 0,0,0,0]⟩ ∧
    read_ply (fun _ => some ())
        (fixed_engine [⟨"face", [⟨"vertex_indices", true, 3⟩]⟩]
          [(("face", "vertex_indices"),
            ⟨.UINT32, 2, [0,0,0,0, 1,0,0,0, 2,0,0,0, 2,0,0,0, 3,0,0,0, 0,0,0,0]⟩)]) "mesh.ply" =
      .ok [("face", [("vertex_indices", ⟨⟨'u', 4⟩, [2, 3], [12, 4],
        [0,0,0,0, 1,0,0,0, 2,0,0,0, 2,0,0,0, 3,0,0,0, 0,0,0,0]⟩)])] :=
  ⟨((read_ply_marshals_property ⟨"vertex_indices", true, 3⟩
      ⟨.UINT32, 2, [0,0,0,0, 1,0,0,0, 2,0,0,0, 2,0,0,0, 3,0,0,0, 0,0,0,0]⟩ ⟨'u', 4⟩ rfl
      (by decide)).2.1 3 rfl rfl (by decide) (by decide) (by decide)).2.1 rfl,
   (read_ply_marshals_property ⟨"vertex_indices", true, 3⟩
      ⟨.UINT32, 2, [0,0,0,0, 1,0,0,0, 2,0,0,0, 2,0,0,0, 3,0,0,0, 0,0,0,0]⟩ ⟨'u', 4⟩ rfl
      (by decide)).2.2 "face" "mesh.ply"⟩

/-- C5, as amended. For a list property of fixed length `L > 1` whose data has a supported
storage type and whose required size `count * L * stride` fits `size_t`: when the byte length
of the buffer differs from `count * L * stride`, in particular when it is not a multiple of it,
the conversion fails with ShapeMismatch, and it never builds an array over a buffer of another
size.  The scalar branch (a scalar property, or a list of fixed length 1) has no size check: it
copies the buffer, whatever its length, into a 1-dimensional array. -/
theorem read_ply_validates_list_shape (prop : PlyProperty) (plyData : PlyData) (d : dtype)
    (hT : tinyply_type_to_numpy_dtype plyData.t = .ok d) :
    (∀ L : Nat, prop.isList = true → prop.listCount = L → 1 < L →
      plyData.count * L * stride plyData.t < 2 ^ 64 →
      (plyData.buffer.length ≠ plyData.count * L * stride plyData.t →
        marshal_property prop plyData = .error (.ShapeMismatch prop.name)) ∧
      (¬ (plyData.count * L * stride plyData.t ∣ plyData.buffer.length) →
        marshal_property prop plyData = .error (.ShapeMismatch prop.name)) ∧
      (∀ a, marshal_property prop plyData = .ok a →
        plyData.buffer.length = plyData.count * L * stride plyData.t ∧
        a.data = plyData.buffer)) ∧
    ((prop.isList = false ∨ (prop.isList = true ∧ prop.listCount = 1)) →
      marshal_property prop plyData =
        .ok ⟨d, [ssize_t plyData.count], [ssize_t (stride plyData.t)], plyData.buffer⟩) := by
  have hs := stride_supported plyData.t d hT
  refine ⟨?_, marshal_property_scalar prop plyData d hT⟩
  intro L hlist hL h1 hrange
  subst hL
  have h := marshal_property_list prop plyData d hT hlist h1
  rw [requiredBytes_of_lt _ _ _ hs.1 hrange] at h
  have hmis : plyData.buffer.length ≠ plyData.count * prop.listCount * stride plyData.t →
      marshal_property prop plyData = .error (.ShapeMismatch prop.name) := by
    intro hne
    rw [h, if_pos (Ne.symm hne)]
  refine ⟨hmis, ?_, ?_⟩
  · intro hdvd
    apply hmis
    intro heq
    exact hdvd (heq ▸ dvd_refl _)
  · intro a ha
    by_cases heq : plyData.buffer.length = plyData.count * prop.listCount * stride plyData.t
    · refine ⟨heq, ?_⟩
      rw [h, if_neg (by simpa using heq.symm)] at ha
      cases ha
      rfl
    · rw [hmis heq] at ha
      cases ha

/-- C5, as amended, on a 23-byte buffer for 2 rows of 3 uint32 values. -/
theorem read_ply_validates_list_shape_witness :
    marshal_property ⟨"vertex_indices", true, 3⟩
        ⟨.UINT32, 2, [0,0,0,0, 1,0,0,0, 2,0,0,0, 2,0,0,0, 3,0,0,0, 0,0,0]⟩ =
      .error (.ShapeMismatch "vertex_indices") :=
  ((read_ply_validates_list_shape ⟨"vertex_indices", true, 3⟩
      ⟨.UINT32, 2, [0,0,0,0, 1,0,0,0, 2,0,0,0, 2,0,0,0, 3,0,0,0, 0,0,0]⟩ ⟨'u', 4⟩ rfl).1
    3 rfl rfl (by decide) (by decide)).1 (by decide)

/-- C5, refuted as stated: a scalar float32 property with 2 rows and a 7-byte buffer (7 is not
a multiple of 2 * 1 * 4) is read without any failure, into an array of shape (2,) over the 7
bytes. -/
theorem read_ply_scalar_has_no_size_check :
    read_ply (fun _ => some ())
        (fixed_engine [⟨"vertex", [⟨"x", false, 0⟩]⟩]
          [(("vertex", "x"), ⟨.FLOAT32, 2, [0, 0, 128, 63, 0, 0, 0]⟩)]) "in.ply" =
      .ok [("vertex", [("x", ⟨⟨'f', 4⟩, [2], [4], [0, 0, 128, 63, 0, 0, 0]⟩)])] ∧
    ¬ (2 * 1 * stride .FLOAT32 ∣ [(0 : byte), 0, 128, 63, 0, 0, 0].length) :=
  ⟨rfl, by decide⟩

/-! ## read_ply: the loops -/

/-- An item of a dict after `d[key] = value` is an item of `d` or the new item. -/
theorem mem_setitem {α : Type} (d : PyDict α) (key : String) (value : α) (kv : String × α)
    (h : kv ∈ d.setitem key value) : kv ∈ d ∨ kv = (key, value) := by
  induction d with
  | nil =>
    simp only [PyDict.setitem, List.mem_singleton] at h
    exact Or.inr h
  | cons hd tl ih =>
    obtain ⟨k, v⟩ := hd
    simp only [PyDict.setitem] at h
    split_ifs at h with hk
    · rcases List.mem_cons.1 h with h | h
      · right
        rw [h, hk]
      · left
        exact List.mem_cons_of_mem _ h
    · rcases List.mem_cons.1 h with h | h
      · left
        rw [h]
        exact List.mem_cons_self _ _
      · rcases ih h with h | h
        · left
          exact List.mem_cons_of_mem _ h
        · right
          exact h

/-- The inner conversion loop on a concatenation runs the two parts in sequence. -/
theorem marshal_properties_append {F σ H : Type} (file : PlyFile F σ H) (s : σ)
    (m : RequestedData H) (elmName : String) (ps₁ ps₂ : List PlyProperty) (pd : PyDict array) :
    marshal_properties file s m elmName (ps₁ ++ ps₂) pd =
      match marshal_properties file s m elmName ps₁ pd with
      | .error err => .error err
      | .ok pd1 => marshal_properties file s m elmName ps₂ pd1 := by
  induction ps₁ generalizing pd with
  | nil => rfl
  | cons q rest ih =>
    cases hm : m (elmName, q.name) with
    | none =>
      simp only [List.cons_append, marshal_properties, hm]
      exact ih pd
    | some h =>
      cases hdat : file.data s h with
      | none =>
        simp only [List.cons_append, marshal_properties, hm, hdat]
        exact ih pd
      | some plyData =>
        cases hc : marshal_property q plyData with
        | error err => simp only [List.cons_append, marshal_properties, hm, hdat, hc]
        | ok a =>
          simp only [List.cons_append, marshal_properties, hm, hdat, hc]
          exact ih _

/-- The outer conversion loop on a concatenation runs the two parts in sequence. -/
theorem marshal_elements_append {F σ H : Type} (file : PlyFile F σ H) (s : σ)
    (m : RequestedData H) (els₁ els₂ : List PlyElement) (root : PyDict (PyDict array)) :
    marshal_elements file s m (els₁ ++ els₂) root =
      match marshal_elements file s m els₁ root with
      | .error err => .error err
      | .ok root1 => marshal_elements file s m els₂ root1 := by
  induction els₁ generalizing root with
  | nil => rfl
  | cons elm rest ih =>
    cases hc : marshal_properties file s m elm.name elm.properties [] with
    | error err => simp only [List.cons_append, marshal_elements, hc]
    | ok pd =>
      simp only [List.cons_append, marshal_elements, hc]
      split_ifs
      · exact ih _
      · exact ih _

/-- The conversion of one property throws one of its three exceptions only. -/
theorem marshal_property_error_kind (prop : PlyProperty) (plyData : PlyData) (err : PlyError)
    (h : marshal_property prop plyData = .error err) : marshal_error err := by
  by_cases h1 : prop.isList = true ∧ ¬ prop.listCount > 0
  · simp only [marshal_property, h1, and_self, if_true] at h
    cases h
    exact Or.inl ⟨_, rfl⟩
  · cases hT : tinyply_type_to_numpy_dtype plyData.t with
    | error e2 =>
      simp only [marshal_property, h1, if_false, hT] at h
      cases h
      right; left
      cases ht : plyData.t <;> rw [ht] at hT <;> simp [tinyply_type_to_numpy_dtype] at hT <;>
        exact hT.symm
    | ok d =>
      simp only [marshal_property, h1, if_false, hT] at h
      split_ifs at h
      all_goals cases h
      all_goals exact Or.inr (Or.inr ⟨_, rfl⟩)

/-- The inner conversion loop throws only exceptions of the conversion of a property. -/
theorem marshal_properties_error_kind {F σ H : Type} (file : PlyFile F σ H) (s : σ)
    (m : RequestedData H) (elmName : String) (ps : List PlyProperty) (pd : PyDict array)
    (err : PlyError) (h : marshal_properties file s m elmName ps pd = .error err) :
    marshal_error err := by
  induction ps generalizing pd with
  | nil => simp [marshal_properties] at h
  | cons q rest ih =>
    simp only [marshal_properties] at h
    cases hm : m (elmName, q.name) with
    | none => rw [hm] at h; exact ih pd h
    | some hd =>
      rw [hm] at h
      simp only at h
      cases hdat : file.data s hd with
      | none => rw [hdat] at h; exact ih pd h
      | some plyData =>
        rw [hdat] at h
        simp only at h
        cases hc : marshal_property q plyData with
        | error e2 =>
          rw [hc] at h
          cases h
          exact marshal_property_error_kind q plyData _ hc
        | ok a =>
          rw [hc] at h
          exact ih _ h

/-- The outer conversion loop throws only exceptions of the conversion of a property. -/
theorem marshal_elements_error_kind {F σ H : Type} (file : PlyFile F σ H) (s : σ)
    (m : RequestedData H) (els : List PlyElement) (root : PyDict (PyDict array))
    (err : PlyError) (h : marshal_elements file s m els root = .error err) :
    marshal_error err := by
  induction els generalizing root with
  | nil => simp [marshal_elements] at h
  | cons elm rest ih =>
    simp only [marshal_elements] at h
    cases hc : marshal_properties file s m elm.name elm.properties [] with
    | error e2 =>
      rw [hc] at h
      cases h
      exact marshal_properties_error_kind file s m _ _ _ _ hc
    | ok pd =>
      rw [hc] at h
      simp only at h
      split_ifs at h
      · exact ih _ h
      · exact ih _ h

/-- The inner conversion loop throws at a variable-length list property with data, unless it
threw before. -/
theorem marshal_properties_variable {F σ H : Type} (file : PlyFile F σ H) (s : σ)
    (m : RequestedData H) (elmName : String) (ps₁ ps₂ : List PlyProperty) (prop : PlyProperty)
    (pd : PyDict array) (h : H) (plyData : PlyData) (hreq : m (elmName, prop.name) = some h)
    (hdata : file.data s h = some plyData) (hlist : prop.isList = true)
    (hvar : prop.listCount = 0) :
    (∃ err, marshal_properties file s m elmName (ps₁ ++ prop :: ps₂) pd = .error err) ∧
    (∀ pd1, marshal_properties file s m elmName ps₁ pd = .ok pd1 →
      marshal_properties file s m elmName (ps₁ ++ prop :: ps₂) pd =
        .error (.UnsupportedShape prop.name)) := by
  have hstep : ∀ pd1, marshal_properties file s m elmName (prop :: ps₂) pd1 =
      .error (.UnsupportedShape prop.name) := by
    intro pd1
    simp [marshal_properties, hreq, hdata, marshal_property, hlist, hvar]
  rw [marshal_properties_append]
  cases hc : marshal_properties file s m elmName ps₁ pd with
  | error err => exact ⟨⟨err, rfl⟩, fun pd1 h1 => by cases h1⟩
  | ok pd1 => exact ⟨⟨_, hstep pd1⟩, fun _ _ => hstep pd1⟩

/-- C6, as amended. When the file opens, the header parses and the engine's read succeeds, and
some property of the header has a handle in `requestedData` with data behind it, `isList` set
and no fixed list length (`listCount = 0`), then `read_ply` fails and returns no mapping,
whatever the other properties are.  The exception is UnsupportedShape for that property when
the elements and properties before it in header order convert without error; in every case it
is an exception of the conversion of some property (UnsupportedShape, UnsupportedType or
ShapeMismatch), namely of the first one that fails. -/
theorem read_ply_rejects_variable_list {F σ H : Type} (fopen : String → Option F)
    (file : PlyFile F σ H) (filename : String) (file_stream : F) (s0 s2 : σ)
    (hopen : fopen filename = some file_stream)
    (hparse : file.parse_header file_stream = .ok s0)
    (hread : file.read (request_all file (file.get_elements s0) (fun _ => none, s0)).2
      file_stream = .ok s2)
    (els₁ els₂ : List PlyElement) (elmName : String) (ps₁ ps₂ : List PlyProperty)
    (prop : PlyProperty)
    (hels : file.get_elements s2 = els₁ ++ ⟨elmName, ps₁ ++ prop :: ps₂⟩ :: els₂)
    (h : H) (plyData : PlyData)
    (hreq : (request_all file (file.get_elements s0) (fun _ => none, s0)).1
      (elmName, prop.name) = some h)
    (hdata : file.data s2 h = some plyData)
    (hlist : prop.isList = true) (hvar : prop.listCount = 0) :
    (∃ err, read_ply fopen file filename = .error err ∧ marshal_error err) ∧
    (∀ root pd,
      marshal_elements file s2
        (request_all file (file.get_elements s0) (fun _ => none, s0)).1 els₁ [] = .ok root →
      marshal_properties file s2
        (request_all file (file.get_elements s0) (fun _ => none, s0)).1 elmName ps₁ [] = .ok pd →
      read_ply fopen file filename = .error (.UnsupportedShape prop.name)) := by
  have hrp : read_ply fopen file filename =
      marshal_elements file s2 (request_all file (file.get_elements s0) (fun _ => none, s0)).1
        (els₁ ++ ⟨elmName, ps₁ ++ prop :: ps₂⟩ :: els₂) [] := by
    simp only [read_ply, hopen, hparse, hread, hels]
  rw [hrp, marshal_elements_append]
  obtain ⟨⟨e1, he1⟩, hkind⟩ := marshal_properties_variable file s2
    (request_all file (file.get_elements s0) (fun _ => none, s0)).1 elmName ps₁ ps₂ prop []
    h plyData hreq hdata hlist hvar
  cases hc : marshal_elements file s2
      (request_all file (file.get_elements s0) (fun _ => none, s0)).1 els₁ [] with
  | error err =>
    refine ⟨⟨err, rfl, marshal_elements_error_kind _ _ _ _ _ _ hc⟩, ?_⟩
    intro root pd h1
    cases h1
  | ok root1 =>
    simp only [marshal_elements, he1]
    refine ⟨⟨e1, rfl, marshal_properties_error_kind _ _ _ _ _ _ _ he1⟩, ?_⟩
    intro root pd _ h2
    rw [hkind pd h2] at he1
    cases he1
    rfl

/-- C6, as amended, on a file with a scalar float32 property and a variable-length list:
`read_ply` fails with UnsupportedShape for the list. -/
theorem read_ply_rejects_variable_list_witness :
    read_ply (fun _ => some ())
        (fixed_engine [⟨"vertex", [⟨"x", false, 0⟩]⟩, ⟨"face", [⟨"vertex_indices", true, 0⟩]⟩]
          [(("vertex", "x"), ⟨.FLOAT32, 1, [0, 0, 128, 63]⟩),
           (("face", "vertex_indices"), ⟨.INT32, 1, [0,0,0,0, 1,0,0,0, 2,0,0,0]⟩)]) "in.ply" =
      .error (.UnsupportedShape "vertex_indices") :=
  (read_ply_rejects_variable_list (fun _ => some ())
      (fixed_engine [⟨"vertex", [⟨"x", false, 0⟩]⟩, ⟨"face", [⟨"vertex_indices", true, 0⟩]⟩]
        [(("vertex", "x"), ⟨.FLOAT32, 1, [0, 0, 128, 63]⟩),
         (("face", "vertex_indices"), ⟨.INT32, 1, [0,0,0,0, 1,0,0,0, 2,0,0,0]⟩)]) "in.ply"
      () () () rfl rfl rfl [⟨"vertex", [⟨"x", false, 0⟩]⟩] [] "face" [] []
      ⟨"vertex_indices", true, 0⟩ rfl ⟨.INT32, 1, [0,0,0,0, 1,0,0,0, 2,0,0,0]⟩
      ⟨.INT32, 1, [0,0,0,0, 1,0,0,0, 2,0,0,0]⟩ rfl rfl rfl rfl).2
    [("vertex", [("x", ⟨⟨'f', 4⟩, [1], [4], [0, 0, 128, 63]⟩)])] [] rfl rfl

/-- C6, refuted as stated: on a file whose element `vertex` has a float64 scalar property and
whose element `face` has a variable-length list property, both requested successfully,
`read_ply` fails with UnsupportedType, not with UnsupportedShape. -/
theorem read_ply_fails_on_first_bad_property :
    read_ply (fun _ => some ())
        (fixed_engine [⟨"vertex", [⟨"x", false, 0⟩]⟩, ⟨"face", [⟨"vertex_indices", true, 0⟩]⟩]
          [(("vertex", "x"), ⟨.FLOAT64, 1, [0, 0, 0, 0, 0, 0, 240, 63]⟩),
           (("face", "vertex_indices"), ⟨.INT32, 1, [0,0,0,0, 1,0,0,0, 2,0,0,0]⟩)]) "in.ply" =
      .error .UnsupportedType ∧
    PlyError.UnsupportedType ≠ PlyError.UnsupportedShape "vertex_indices" :=
  ⟨rfl, by decide⟩

/-! ## read_ply: rejected requests -/

/-- A key without handle after a request had none before. -/
theorem request_property_none {F σ H : Type} (file : PlyFile F σ H) (elmName : String)
    (st : RequestedData H × σ) (q : PlyProperty) (key : String × String)
    (h : (request_property file elmName st q).1 key = none) : st.1 key = none := by
  unfold request_property at h
  rcases hr : file.request_properties_from_element st.2 elmName [q.name] (list_size_hint q)
    with ⟨_ | hd, s'⟩
  · rw [hr] at h
    exact h
  · rw [hr] at h
    simp only [RequestedData.assign] at h
    split_ifs at h
    exact h

/-- A key without handle after the requests of an element had none before. -/
theorem request_properties_none {F σ H : Type} (file : PlyFile F σ H) (elmName : String)
    (ps : List PlyProperty) (st : RequestedData H × σ) (key : String × String)
    (h : (ps.foldl (request_property file elmName) st).1 key = none) : st.1 key = none := by
  induction ps generalizing st with
  | nil => exact h
  | cons q rest ih =>
    exact request_property_none file elmName st q key (ih _ h)

/-- A key without handle after all requests had none before. -/
theorem request_all_none {F σ H : Type} (file : PlyFile F σ H) (els : List PlyElement)
    (st : RequestedData H × σ) (key : String × String)
    (h : (request_all file els st).1 key = none) : st.1 key = none := by
  induction els generalizing st with
  | nil => exact h
  | cons elm rest ih =>
    exact request_properties_none file elm.name elm.properties st key (ih _ h)

/-- The `catch` of line 108: a request that throws stores nothing. -/
theorem request_property_rejected {F σ H : Type} (file : PlyFile F σ H) (elmName : String)
    (st : RequestedData H × σ) (q : PlyProperty) (err : PlyError) (s' : σ)
    (h : file.request_properties_from_element st.2 elmName [q.name] (list_size_hint q) =
      (.error err, s')) :
    request_property file elmName st q = (st.1, s') := by
  simp [request_property, h]

/-- The requests of an element whose key ends without handle are those of the element without
the property, when a request that throws leaves the engine as it was. -/
theorem request_properties_drop {F σ H : Type} (file : PlyFile F σ H) (elmName propName : String)
    (hsafe : ∀ s e ps hint err s',
      file.request_properties_from_element s e ps hint = (.error err, s') → s' = s)
    (ps : List PlyProperty) (st : RequestedData H × σ)
    (h : (ps.foldl (request_property file elmName) st).1 (elmName, propName) = none) :
    (ps.filter (fun q => q.name ≠ propName)).foldl (request_property file elmName) st =
      ps.foldl (request_property file elmName) st := by
  induction ps generalizing st with
  | nil => rfl
  | cons q rest ih =>
    by_cases hq : q.name = propName
    · have hstep : request_property file elmName st q = st := by
        have hnone := request_properties_none file elmName rest _ _ h
        unfold request_property at hnone ⊢
        rcases hr : file.request_properties_from_element st.2 elmName [q.name]
            (list_size_hint q) with ⟨err | hd, s'⟩
        · have := hsafe _ _ _ _ _ _ hr
          subst this
          rfl
        · rw [hr] at hnone
          simp [RequestedData.assign, hq] at hnone
      simp only [List.foldl_cons, hstep] at h ⊢
      rw [← ih st h]
      simp [List.filter, hq]
    · simp only [List.foldl_cons] at h ⊢
      rw [← ih _ h]
      simp [List.filter, hq]

/-- All requests, when the key ends without handle, are those of the header without the
property, when a request that throws leaves the engine as it was. -/
theorem request_all_drop {F σ H : Type} (file : PlyFile F σ H) (elmName propName : String)
    (hsafe : ∀ s e ps hint err s',
      file.request_properties_from_element s e ps hint = (.error err, s') → s' = s)
    (els : List PlyElement) (st : RequestedData H × σ)
    (h : (request_all file els st).1 (elmName, propName) = none) :
    request_all file (drop_property elmName propName els) st = request_all file els st := by
  induction els generalizing st with
  | nil => rfl
  | cons elm rest ih =>
    have hrest := ih _ h
    have hnone := request_all_none file rest _ _ h
    simp only [request_all, drop_property, List.map_cons, List.foldl_cons] at hrest hnone ⊢
    by_cases hn : elm.name = elmName
    · simp only [hn, if_true]
      rw [hn] at hnone
      rw [request_properties_drop file elmName propName hsafe elm.properties st hnone]
      rw [hn] at hrest
      exact hrest
    · simp only [hn, if_false]
      exact hrest

/-- The inner conversion loop skips a property whose key has no handle. -/
theorem marshal_properties_drop {F σ H : Type} (file : PlyFile F σ H) (s : σ)
    (m : RequestedData H) (elmName propName : String) (hm : m (elmName, propName) = none)
    (ps : List PlyProperty) (pd : PyDict array) :
    marshal_properties file s m elmName (ps.filter (fun q => q.name ≠ propName)) pd =
      marshal_properties file s m elmName ps pd := by
  induction ps generalizing pd with
  | nil => rfl
  | cons q rest ih =>
    by_cases hq : q.name = propName
    · have : (q :: rest).filter (fun q => q.name ≠ propName) =
          rest.filter (fun q => q.name ≠ propName) := by simp [List.filter, hq]
      rw [this, ih]
      simp only [marshal_properties, hq, hm]
    · have : (q :: rest).filter (fun q => q.name ≠ propName) =
          q :: rest.filter (fun q => q.name ≠ propName) := by simp [List.filter, hq]
      rw [this]
      simp only [marshal_properties]
      cases m (elmName, q.name) with
      | none => exact ih pd
      | some hd =>
        simp only
        cases file.data s hd with
        | none => exact ih pd
        | some plyData =>
          simp only
          cases marshal_property q plyData with
          | error err => rfl
          | ok a => exact ih _

/-- The outer conversion loop gives the same result on the header without a property whose key
has no handle. -/
theorem marshal_elements_drop {F σ H : Type} (file : PlyFile F σ H) (s : σ)
    (m : RequestedData H) (elmName propName : String) (hm : m (elmName, propName) = none)
    (els : List PlyElement) (root : PyDict (PyDict array)) :
    marshal_elements file s m (drop_property elmName propName els) root =
      marshal_elements file s m els root := by
  induction els generalizing root with
  | nil => rfl
  | cons elm rest ih =>
    have hrest : ∀ r, marshal_elements file s m (List.map (fun elm =>
        if elm.name = elmName then
          ⟨elm.name, elm.properties.filter (fun q => q.name ≠ propName)⟩
        else elm) rest) r = marshal_elements file s m rest r := ih
    simp only [drop_property, List.map_cons, marshal_elements]
    by_cases hn : elm.name = elmName
    · simp only [hn, if_true]
      rw [marshal_properties_drop file s m elmName propName hm]
      cases marshal_properties file s m elmName elm.properties [] with
      | error err => rfl
      | ok pd =>
        simp only
        split_ifs
        · exact hrest _
        · exact hrest _
    · simp only [hn, if_false]
      cases marshal_properties file s m elm.name elm.properties [] with
      | error err => rfl
      | ok pd =>
        simp only
        split_ifs
        · exact hrest _
        · exact hrest _

/-- The requests depend on the engine through its request operation only. -/
theorem request_all_congr {F σ H : Type} (file file' : PlyFile F σ H)
    (hreq : file'.request_properties_from_element = file.request_properties_from_element)
    (els : List PlyElement) (st : RequestedData H × σ) :
    request_all file' els st = request_all file els st := by
  have h : request_property file' = request_property file := by
    funext e st q
    simp [request_property, hreq]
  simp [request_all, h]

/-- The inner conversion loop depends on the engine through the data behind the handles. -/
theorem marshal_properties_congr {F σ H : Type} (file file' : PlyFile F σ H)
    (hdata : file'.data = file.data) (s : σ) (m : RequestedData H) (elmName : String)
    (ps : List PlyProperty) (pd : PyDict array) :
    marshal_properties file' s m elmName ps pd = marshal_properties file s m elmName ps pd := by
  induction ps generalizing pd with
  | nil => rfl
  | cons q rest ih =>
    simp only [marshal_properties, hdata, ih]

/-- The outer conversion loop depends on the engine through the data behind the handles. -/
theorem marshal_elements_congr {F σ H : Type} (file file' : PlyFile F σ H)
    (hdata : file'.data = file.data) (s : σ) (m : RequestedData H)
    (els : List PlyElement) (root : PyDict (PyDict array)) :
    marshal_elements file' s m els root = marshal_elements file s m els root := by
  induction els generalizing root with
  | nil => rfl
  | cons elm rest ih =>
    simp only [marshal_elements, marshal_properties_congr file file' hdata, ih]

/-- The items of `propertyDict` after the inner conversion loop were there before or carry the
name of a property of the element whose key has a handle. -/
theorem marshal_properties_items {F σ H : Type} (file : PlyFile F σ H) (s : σ)
    (m : RequestedData H) (elmName : String) (ps : List PlyProperty) (pd0 pd : PyDict array)
    (h : marshal_properties file s m elmName ps pd0 = .ok pd) :
    ∀ kv ∈ pd, kv ∈ pd0 ∨ ∃ q ∈ ps, q.name = kv.1 ∧ m (elmName, q.name) ≠ none := by
  induction ps generalizing pd0 with
  | nil =>
    simp only [marshal_properties] at h
    cases h
    intro kv hkv
    exact Or.inl hkv
  | cons q rest ih =>
    have hweak : ∀ kv : String × array,
        (kv ∈ pd0 ∨ ∃ q' ∈ rest, q'.name = kv.1 ∧ m (elmName, q'.name) ≠ none) →
        (kv ∈ pd0 ∨ ∃ q' ∈ q :: rest, q'.name = kv.1 ∧ m (elmName, q'.name) ≠ none) := by
      rintro kv (hk | ⟨q', hq', hn⟩)
      · exact Or.inl hk
      · exact Or.inr ⟨q', List.mem_cons_of_mem _ hq', hn⟩
    simp only [marshal_properties] at h
    cases hm : m (elmName, q.name) with
    | none =>
      rw [hm] at h
      exact fun kv hkv => hweak kv (ih pd0 h kv hkv)
    | some hd =>
      rw [hm] at h
      simp only at h
      cases hdat : file.data s hd with
      | none =>
        rw [hdat] at h
        exact fun kv hkv => hweak kv (ih pd0 h kv hkv)
      | some plyData =>
        rw [hdat] at h
        simp only at h
        cases hc : marshal_property q plyData with
        | error err => rw [hc] at h; cases h
        | ok a =>
          rw [hc] at h
          intro kv hkv
          rcases ih _ h kv hkv with hk | ⟨q', hq', hn⟩
          · rcases mem_setitem _ _ _ _ hk with hk | hk
            · exact Or.inl hk
            · right
              refine ⟨q, List.mem_cons_self _ _, ?_, ?_⟩
              · rw [hk]
              · rw [hm]
                simp
          · exact Or.inr ⟨q', List.mem_cons_of_mem _ hq', hn⟩

/-- The items of `rootDict` after the outer conversion loop were there before or are the
non-empty `propertyDict` of an element of that name. -/
theorem marshal_elements_items {F σ H : Type} (file : PlyFile F σ H) (s : σ)
    (m : RequestedData H) (els : List PlyElement) (root0 root : PyDict (PyDict array))
    (h : marshal_elements file s m els root0 = .ok root) :
    ∀ kv ∈ root, kv ∈ root0 ∨ ∃ elm ∈ els, elm.name = kv.1 ∧
      marshal_properties file s m elm.name elm.properties [] = .ok kv.2 ∧ kv.2 ≠ [] := by
  induction els generalizing root0 with
  | nil =>
    simp only [marshal_elements] at h
    cases h
    intro kv hkv
    exact Or.inl hkv
  | cons elm rest ih =>
    simp only [marshal_elements] at h
    cases hc : marshal_properties file s m elm.name elm.properties [] with
    | error err => rw [hc] at h; cases h
    | ok pd =>
      rw [hc] at h
      simp only at h
      split_ifs at h with hlen
      · intro kv hkv
        rcases ih _ h kv hkv with hk | ⟨e', he', hn⟩
        · rcases mem_setitem _ _ _ _ hk with hk | hk
          · exact Or.inl hk
          · right
            refine ⟨elm, List.mem_cons_self _ _, ?_, ?_, ?_⟩
            · rw [hk]
            · rw [hk]
              exact hc
            · rw [hk]
              intro hnil
              simp only at hnil
              rw [hnil] at hlen
              simp at hlen
        · exact Or.inr ⟨e', List.mem_cons_of_mem _ he', hn⟩
      · intro kv hkv
        rcases ih _ h kv hkv with hk | ⟨e', he', hn⟩
        · exact Or.inl hk
        · exact Or.inr ⟨e', List.mem_cons_of_mem _ he', hn⟩
/-- When the engine rejects every request for a property, no request stores a handle for its
key. -/
theorem request_property_rejected_none {F σ H : Type} (file : PlyFile F σ H)
    (elmName propName : String)
    (hrej : ∀ s hint, ∃ err s',
      file.request_properties_from_element s elmName [propName] hint = (.error err, s'))
    (n : String) (st : RequestedData H × σ) (q : PlyProperty)
    (h : st.1 (elmName, propName) = none) :
    (request_property file n st q).1 (elmName, propName) = none := by
  unfold request_property
  rcases hr : file.request_properties_from_element st.2 n [q.name] (list_size_hint q)
    with ⟨err | hd, s'⟩
  · exact h
  · simp only [RequestedData.assign]
    split_ifs with hk
    · exfalso
      simp only [Prod.mk.injEq] at hk
      obtain ⟨err, s'', hrej'⟩ := hrej st.2 (list_size_hint q)
      rw [hk.1, hk.2, hr] at hrej'
      cases hrej'
    · exact h

/-- When the engine rejects every request for a property, its key has no handle after all
requests. -/
theorem request_all_rejected_none {F σ H : Type} (file : PlyFile F σ H)
    (elmName propName : String)
    (hrej : ∀ s hint, ∃ err s',
      file.request_properties_from_element s elmName [propName] hint = (.error err, s'))
    (els : List PlyElement) (st : RequestedData H × σ)
    (h : st.1 (elmName, propName) = none) :
    (request_all file els st).1 (elmName, propName) = none := by
  have hinner : ∀ (n : String) (ps : List PlyProperty) (st : RequestedData H × σ),
      st.1 (elmName, propName) = none →
      (ps.foldl (request_property file n) st).1 (elmName, propName) = none := by
    intro n ps
    induction ps with
    | nil => exact fun st h => h
    | cons q rest ih =>
      intro st h
      exact ih _ (request_property_rejected_none file elmName propName hrej n st q h)
  induction els generalizing st with
  | nil => exact h
  | cons elm rest ih =>
    exact ih _ (hinner elm.name elm.properties st h)

/-- A successful `read_ply` went through all its stages. -/
theorem read_ply_ok_stages {F σ H : Type} (fopen : String → Option F) (file : PlyFile F σ H)
    (filename : String) (root : PyDict (PyDict array))
    (h : read_ply fopen file filename = .ok root) :
    ∃ file_stream s0 s2, fopen filename = some file_stream ∧
      file.parse_header file_stream = .ok s0 ∧
      file.read (request_all file (file.get_elements s0) (fun _ => none, s0)).2 file_stream
        = .ok s2 ∧
      marshal_elements file s2 (request_all file (file.get_elements s0) (fun _ => none, s0)).1
        (file.get_elements s2) [] = .ok root := by
  unfold read_ply at h
  cases ho : fopen filename with
  | none => rw [ho] at h; cases h
  | some file_stream =>
    rw [ho] at h
    simp only at h
    cases hp : file.parse_header file_stream with
    | error err => rw [hp] at h; cases h
    | ok s0 =>
      rw [hp] at h
      simp only at h
      cases hr : file.read (request_all file (file.get_elements s0) (fun _ => none, s0)).2
          file_stream with
      | error err => rw [hr] at h; cases h
      | ok s2 =>
        rw [hr] at h
        exact ⟨file_stream, s0, s2, rfl, hp, hr, h⟩

/-- C9. Skip-on-absence. A request that the engine rejects is caught: nothing is stored in
`requestedData` and the loop goes on, so a property whose requests the engine rejects has no
handle under its key.  When no handle is stored for the key (element, property) after the
requests, then the mapping `read_ply` returns has that property under no element of that name,
and no element is mapped to an empty dict; an element of which no property has a handle is
absent from the mapping; and, for an engine that a rejected request leaves as it was,
`read_ply` gives on this header exactly the outcome (the same mapping, or the same failure) it
gives on the header without that property. -/
theorem read_ply_skips_rejected_property {F σ H : Type} (fopen : String → Option F)
    (file : PlyFile F σ H) (filename elmName propName : String)
    (hnohandle : ∀ file_stream s0, fopen filename = some file_stream →
      file.parse_header file_stream = .ok s0 →
      (request_all file (file.get_elements s0) (fun _ => none, s0)).1 (elmName, propName)
        = none) :
    (∀ (st : RequestedData H × σ) (e : String) (q : PlyProperty) (err : PlyError) (s' : σ),
      file.request_properties_from_element st.2 e [q.name] (list_size_hint q) = (.error err, s') →
      request_property file e st q = (st.1, s')) ∧
    ((∀ s hint, ∃ err s',
        file.request_properties_from_element s elmName [propName] hint = (.error err, s')) →
      ∀ (els : List PlyElement) (s0 : σ),
        (request_all file els (fun _ => none, s0)).1 (elmName, propName) = none) ∧
    (∀ root, read_ply fopen file filename = .ok root →
      (∀ pd, (elmName, pd) ∈ root → ∀ a, (propName, a) ∉ pd) ∧ (∀ kv ∈ root, kv.2 ≠ [])) ∧
    (∀ file_stream s0 s2 root, fopen filename = some file_stream →
      file.parse_header file_stream = .ok s0 →
      file.read (request_all file (file.get_elements s0) (fun _ => none, s0)).2 file_stream
        = .ok s2 →
      (∀ elm ∈ file.get_elements s2, elm.name = elmName → ∀ q ∈ elm.properties,
        (request_all file (file.get_elements s0) (fun _ => none, s0)).1 (elmName, q.name)
          = none) →
      read_ply fopen file filename = .ok root → ∀ pd, (elmName, pd) ∉ root) ∧
    ((∀ s e ps hint err s',
        file.request_properties_from_element s e ps hint = (.error err, s') → s' = s) →
      read_ply fopen (without_property file elmName propName) filename =
        read_ply fopen file filename) := by
  refine ⟨?_, ?_, ?_, ?_, ?_⟩
  · intro st e q err s' h
    exact request_property_rejected file e st q err s' h
  · intro hrej els s0
    exact request_all_rejected_none file elmName propName hrej els _ rfl
  · intro root h
    obtain ⟨file_stream, s0, s2, ho, hp, _, hm⟩ := read_ply_ok_stages fopen file filename root h
    have hnone := hnohandle file_stream s0 ho hp
    have hitems := marshal_elements_items file s2 _ _ [] root hm
    constructor
    · intro pd hpd a ha
      rcases hitems _ hpd with hk | ⟨elm, _, hname, hprops, _⟩
      · simp at hk
      · simp only at hname hprops
        rcases marshal_properties_items file s2 _ _ _ [] pd hprops _ ha with hk | ⟨q, _, hq, hne⟩
        · simp at hk
        · simp only at hq
          rw [hname, hq] at hne
          exact hne hnone
    · intro kv hkv
      rcases hitems _ hkv with hk | ⟨_, _, _, _, hne⟩
      · simp at hk
      · exact hne
  · intro file_stream s0 s2 root ho hp hr hall h pd hpd
    have hm : marshal_elements file s2
        (request_all file (file.get_elements s0) (fun _ => none, s0)).1
        (file.get_elements s2) [] = .ok root := by
      simpa only [read_ply, ho, hp, hr] using h
    rcases marshal_elements_items file s2 _ _ [] root hm _ hpd with hk | ⟨elm, helm, hname, hprops, hne⟩
    · simp at hk
    · simp only at hname hprops hne
      cases pd with
      | nil => exact hne rfl
      | cons kv tl =>
        rcases marshal_properties_items file s2 _ _ _ [] _ hprops kv (List.mem_cons_self _ _)
          with hk | ⟨q, hq, _, hnn⟩
        · simp at hk
        · rw [hname] at hnn
          exact hnn (hall elm helm hname q hq)
  · intro hsafe
    have key : ∀ file' : PlyFile F σ H, file'.parse_header = file.parse_header →
        file'.get_elements = (fun s => drop_property elmName propName (file.get_elements s)) →
        file'.request_properties_from_element = file.request_properties_from_element →
        file'.read = file.read → file'.data = file.data →
        read_ply fopen file' filename = read_ply fopen file filename := by
      intro file' h1 h2 h3 h4 h5
      unfold read_ply
      cases ho : fopen filename with
      | none => rfl
      | some file_stream =>
        simp only [h1]
        cases hp : file.parse_header file_stream with
        | error err => rfl
        | ok s0 =>
          simp only [h2, h4]
          have hnone := hnohandle file_stream s0 ho hp
          have hplan : request_all file'
              (drop_property elmName propName (file.get_elements s0)) (fun _ => none, s0) =
              request_all file (file.get_elements s0) (fun _ => none, s0) :=
            Eq.trans (request_all_congr file file' h3 _ _)
              (request_all_drop file elmName propName hsafe _ _ hnone)
          rw [hplan]
          cases hr : file.read (request_all file (file.get_elements s0) (fun _ => none, s0)).2
              file_stream with
          | error err => rfl
          | ok s2 =>
            exact Eq.trans (marshal_elements_congr file file' h5 _ _ _ _)
              (marshal_elements_drop file s2 _ elmName propName hnone _ _)
    exact key _ rfl rfl rfl rfl rfl

/-- C9, on a header that declares `x` and `colors` under `vertex` and `vertex_indices` under
`face`, where the engine rejects the requests for `colors` and `vertex_indices`: `read_ply`
returns the mapping with `x` only, and the same mapping as for the header without `colors`. -/
theorem read_ply_skips_rejected_property_witness :
    read_ply (fun _ => some ())
        (fixed_engine [⟨"vertex", [⟨"x", false, 0⟩, ⟨"colors", false, 0⟩]⟩,
            ⟨"face", [⟨"vertex_indices", true, 3⟩]⟩]
          [(("vertex", "x"), ⟨.FLOAT32, 1, [0, 0, 128, 63]⟩)]) "in.ply" =
      .ok [("vertex", [("x", ⟨⟨'f', 4⟩, [1], [4], [0, 0, 128, 63]⟩)])] ∧
    read_ply (fun _ => some ())
        (without_property
          (fixed_engine [⟨"vertex", [⟨"x", false, 0⟩, ⟨"colors", false, 0⟩]⟩,
              ⟨"face", [⟨"vertex_indices", true, 3⟩]⟩]
            [(("vertex", "x"), ⟨.FLOAT32, 1, [0, 0, 128, 63]⟩)]) "vertex" "colors") "in.ply" =
      read_ply (fun _ => some ())
        (fixed_engine [⟨"vertex", [⟨"x", false, 0⟩, ⟨"colors", false, 0⟩]⟩,
            ⟨"face", [⟨"vertex_indices", true, 3⟩]⟩]
          [(("vertex", "x"), ⟨.FLOAT32, 1, [0, 0, 128, 63]⟩)]) "in.ply" :=
  ⟨rfl,
    (read_ply_skips_rejected_property (fun _ => some ())
      (fixed_engine [⟨"vertex", [⟨"x", false, 0⟩, ⟨"colors", false, 0⟩]⟩,
          ⟨"face", [⟨"vertex_indices", true, 3⟩]⟩]
        [(("vertex", "x"), ⟨.FLOAT32, 1, [0, 0, 128, 63]⟩)]) "in.ply" "vertex" "colors"
      (fun _ _ _ _ => rfl)).2.2.2.2 (fun _ _ _ _ _ _ _ => rfl)⟩

/-! ## Round trip -/

/-- The file `write_ply` opened holds what the engine was given to write. -/
theorem written_files_self (filename : String) (b b2 : Bool) (plyFile : PlyFileDecl) :
    written_files [.fopen filename b, .engine_write plyFile b2] filename = some plyFile := by
  simp [written_files]

/-- Reading, with the faithful engine, a file with one declared property converts that
property. -/
theorem read_ply_faithful_single (fopen : String → Option PlyFileDecl) (filename : String)
    (c : AddedProperty) (comments : List String) (e p : String)
    (hopen : fopen filename = some ⟨[c], comments⟩)
    (he : c.elementKey = e) (hp : c.propertyKeys = [p]) :
    read_ply fopen faithful_engine filename =
      match marshal_property ⟨p, decide (c.listType ≠ .INVALID), c.listCount⟩ (data_buffer c) with
      | .ok arr => .ok [(e, [(p, arr)])]
      | .error err => .error err := by
  obtain ⟨ek, pk, ty, cnt, dat, lt, lc⟩ := c
  simp only at he hp
  subst he hp
  simp only [read_ply, hopen, faithful_engine, request_all, request_property, declare_property,
    List.foldl_cons, List.foldl_nil, List.map_cons, List.map_nil, List.find?, and_self,
    decide_True, marshal_elements, marshal_properties, RequestedData.assign, if_true]
  cases marshal_property ⟨p, decide (lt ≠ .INVALID), lc⟩ (data_buffer ⟨ek, [p], ty, cnt, dat, lt, lc⟩)
    with
  | error err => rfl
  | ok arr => simp [PyDict.setitem]

/-- The round trip of a mapping with one array: what `write_ply` declared is converted back by
`read_ply`. -/
theorem round_trip_singleton (filename e p : String) (a : array) (isBinary : Bool)
    (c : AddedProperty) (hc : add_array e p a = .ok c) (he : c.elementKey = e)
    (hp : c.propertyKeys = [p]) :
    round_trip filename [(e, [(p, a)])] isBinary =
      match marshal_property ⟨p, decide (c.listType ≠ .INVALID), c.listCount⟩ (data_buffer c) with
      | .ok arr => .ok [(e, [(p, arr)])]
      | .error err => .error err := by
  simp only [round_trip, write_ply, add_elements, add_properties, hc, faithful_env, if_true,
    List.nil_append]
  exact read_ply_faithful_single _ filename c _ e p (written_files_self _ _ _ _) he hp
/-- A supported dtype has a storage type that maps back to it and has its item size as
stride. -/
theorem supported_dtype_type (d : dtype) (hd : d ∈ supportedDtypes) :
    ∃ t, numpy_dtype_to_tinyply_type d = .ok t ∧ tinyply_type_to_numpy_dtype t = .ok d ∧
      stride t = d.itemsize := by
  obtain ⟨t, ht⟩ := (supported_iff_ok d).1 hd
  have h2 := (dtype_to_type_ok_iff d t).1 ht
  exact ⟨t, ht, h2, (itemsize_eq_stride t d h2).symm⟩

/-- The round trip of a 1-dimensional array, and of a 2-dimensional one with a single
column: `write_ply` does not read the strides and hands the engine the memory at `data()`, so
what comes back is the C-contiguous 1-dimensional array over that memory. -/
theorem round_trip_scalar (filename e p : String) (isBinary : Bool) (d : dtype) (count : Nat)
    (shape : List Int) (strides : List Int) (data : List byte) (hd : d ∈ supportedDtypes)
    (hshape : shape = [(count : Int)] ∨ shape = [(count : Int), 1])
    (hlen : data.length = count * d.itemsize) (hrange : data.length < 2 ^ 63) :
    round_trip filename [(e, [(p, ⟨d, shape, strides, data⟩)])] isBinary =
      .ok [(e, [(p, ⟨d, [(count : Int)], [(d.itemsize : Int)], data⟩)])] := by
  obtain ⟨t, ht, hback, hstride⟩ := supported_dtype_type d hd
  have hs := stride_supported t d hback
  have hcount : count < 2 ^ 63 := by
    have : count ≤ count * d.itemsize := Nat.le_mul_of_pos_right _ (by omega)
    omega
  have hc : add_array e p ⟨d, shape, strides, data⟩ =
      .ok ⟨e, [p], t, count, data, .INVALID, 0⟩ := by
    rcases hshape with h | h
    · exact add_array_rank1 e p _ count t h hcount ht
    · have := add_array_rank2 e p ⟨d, shape, strides, data⟩ count 1 t
        (by simpa using h) hcount (by decide) ht
      simpa using this
  rw [round_trip_singleton filename e p _ isBinary _ hc rfl rfl]
  have hbuf : data_buffer ⟨e, [p], t, count, data, .INVALID, 0⟩ = ⟨t, count, data⟩ := by
    simp only [data_buffer, if_true, Nat.mul_one, hstride]
    rw [List.take_of_length_le (by omega)]
  rw [hbuf, marshal_property_scalar _ _ d hback (Or.inl (by simp))]
  simp only
  rw [ssize_t_of_lt _ hcount, ssize_t_of_lt _ (by omega), hstride]

/-- The round trip of a 2-dimensional array with more than one column: `write_ply` does not
read the strides and hands the engine the memory at `data()`, so what comes back is the
C-contiguous 2-dimensional array over that memory. -/
theorem round_trip_list (filename e p : String) (isBinary : Bool) (d : dtype)
    (count listLength : Nat) (strides : List Int) (data : List byte)
    (hd : d ∈ supportedDtypes) (h1 : 1 < listLength) (h32 : listLength < 2 ^ 32)
    (hlen : data.length = count * listLength * d.itemsize) (hrange : data.length < 2 ^ 63) :
    round_trip filename
        [(e, [(p, ⟨d, [(count : Int), (listLength : Int)], strides, data⟩)])] isBinary =
      .ok [(e, [(p, ⟨d, [(count : Int), (listLength : Int)],
        [((listLength * d.itemsize : Nat) : Int), (d.itemsize : Int)], data⟩)])] := by
  obtain ⟨t, ht, hback, hstride⟩ := supported_dtype_type d hd
  have hs := stride_supported t d hback
  have hLs : listLength * d.itemsize < 2 ^ 63 := by
    have : listLength * d.itemsize ≤ 2 ^ 32 * 4 := Nat.mul_le_mul (by omega) (by omega)
    omega
  have hcount : count < 2 ^ 63 := by
    have h2 : 0 < listLength * d.itemsize := Nat.mul_pos (by omega) (by omega)
    have : count ≤ count * (listLength * d.itemsize) := Nat.le_mul_of_pos_right _ h2
    rw [← Nat.mul_assoc] at this
    omega
  have hc : add_array e p ⟨d, [(count : Int), (listLength : Int)], strides, data⟩ =
      .ok ⟨e, [p], t, count, data, .UINT8, listLength⟩ := by
    have := add_array_rank2 e p ⟨d, [(count : Int), (listLength : Int)], strides, data⟩ count
      listLength t rfl hcount (by omega) ht
    rw [this, if_neg (by omega), Nat.mod_eq_of_lt h32]
  rw [round_trip_singleton filename e p _ isBinary _ hc rfl rfl]
  have hbuf : data_buffer ⟨e, [p], t, count, data, .UINT8, listLength⟩ = ⟨t, count, data⟩ := by
    simp only [data_buffer, hstride]
    rw [if_neg (by decide), List.take_of_length_le (by omega)]
  rw [hbuf, marshal_property_list _ _ d hback (by simp) h1]
  simp only
  rw [hstride, requiredBytes_of_lt _ _ _ (by omega) (by omega), if_neg (by simpa using hlen.symm),
    ssize_t_of_lt _ hcount, ssize_t_of_lt _ (by omega : listLength < 2 ^ 63),
    size_t_of_lt _ (by omega), ssize_t_of_lt _ hLs, ssize_t_of_lt _ (by omega)]

/-- C3, as amended. Round trip with the faithful engine, for every supported dtype of native
byte order, every row count and every list length in 1, 2, 3, 4, 255, and every C-contiguous
array (row-major strides, its elements being the bytes at `data()`, fewer than 2^63): writing
an array of shape (count,), or of shape (count, listLength) with listLength in 2, 3, 4, 255,
through `write_ply` and reading the file back through `read_ply` yields, under the same element
and property name, the same NumPy array: the same shape, the same dtype (byte order included),
the same strides and the same bytes; an array of shape (count, 1) is written as a scalar
property and comes back with shape (count,), with the same dtype and the same bytes.  Nothing
is stated for an array that is not C-contiguous or whose dtype is not of native byte order. -/
theorem round_trip_shape_dtype_bytes (filename elementName propertyName : String)
    (isBinary : Bool) (a : ndarray) (count listLength : Nat)
    (hd : a.view.dtype ∈ supportedDtypes) (hnative : a.isnative = true)
    (hL : listLength ∈ [1, 2, 3, 4, 255]) (hcontig : c_contiguous a.view)
    (hrange : a.view.data.length < 2 ^ 63) :
    ((a.view.shape = [(count : Int)] ∨
        (a.view.shape = [(count : Int), (listLength : Int)] ∧ listLength ≠ 1)) →
      ∃ r, round_trip filename [(elementName, [(propertyName, a.view)])] isBinary =
          .ok [(elementName, [(propertyName, r)])] ∧
        built r = a) ∧
    (a.view.shape = [(count : Int), 1] →
      ∃ r, round_trip filename [(elementName, [(propertyName, a.view)])] isBinary =
          .ok [(elementName, [(propertyName, r)])] ∧
        built r = ⟨⟨a.view.dtype, [(count : Int)], [(a.view.dtype.itemsize : Int)],
          a.view.data⟩, a.isnative⟩) := by
  obtain ⟨⟨d, shape, strides, data⟩, native⟩ := a
  simp only at hd hnative hcontig hrange ⊢
  subst hnative
  obtain ⟨hstr, hlen⟩ := hcontig
  simp only at hstr hlen
  refine ⟨?_, ?_⟩
  · rintro (hs | ⟨hs, hne⟩)
    · subst hs
      simp only [c_strides, List.map_cons, List.map_nil, Int.toNat_ofNat, List.prod_cons,
        List.prod_nil, Nat.mul_one] at hstr hlen
      subst hstr
      exact ⟨_, round_trip_scalar filename elementName propertyName isBinary d count _ _ data
        hd (Or.inl rfl) hlen hrange, rfl⟩
    · subst hs
      simp only [c_strides, List.map_cons, List.map_nil, Int.toNat_ofNat, List.prod_cons,
        List.prod_nil, Nat.mul_one] at hstr hlen
      subst hstr
      have h1 : 1 < listLength ∧ listLength < 2 ^ 32 := by
        simp only [List.mem_cons, List.mem_singleton, List.not_mem_nil, or_false] at hL
        rcases hL with h | h | h | h | h <;> subst h <;> simp at hne ⊢
      refine ⟨_, round_trip_list filename elementName propertyName isBinary d count listLength
        _ data hd h1.1 h1.2 hlen hrange, ?_⟩
      simp [built]
  · intro hs
    subst hs
    simp only [c_strides, List.map_cons, List.map_nil, Int.toNat_ofNat, List.prod_cons,
      List.prod_nil, Nat.mul_one, Int.toNat_one] at hstr hlen
    exact ⟨_, round_trip_scalar filename elementName propertyName isBinary d count _ _ data
      hd (Or.inr rfl) hlen hrange, rfl⟩

/-- C3, as amended, on the C-contiguous (2,3) uint32 array of the face scenario, of native byte
order. -/
theorem round_trip_shape_dtype_bytes_witness :
    ∃ r, round_trip "mesh.ply"
        [("face", [("vertex_indices", ⟨⟨'u', 4⟩, [2, 3], [12, 4],
          [0,0,0,0, 1,0,0,0, 2,0,0,0, 2,0,0,0, 3,0,0,0, 0,0,0,0]⟩)])] true =
        .ok [("face", [("vertex_indices", r)])] ∧
      built r = ⟨⟨⟨'u', 4⟩, [2, 3], [12, 4],
          [0,0,0,0, 1,0,0,0, 2,0,0,0, 2,0,0,0, 3,0,0,0, 0,0,0,0]⟩, true⟩ :=
  (round_trip_shape_dtype_bytes "mesh.ply" "face" "vertex_indices" true
    ⟨⟨⟨'u', 4⟩, [2, 3], [12, 4], [0,0,0,0, 1,0,0,0, 2,0,0,0, 2,0,0,0, 3,0,0,0, 0,0,0,0]⟩, true⟩
    2 3 (by decide) rfl (by decide) ⟨rfl, rfl⟩ (by decide)).1 (Or.inr ⟨rfl, by decide⟩)

/-- C3, refuted as stated: the C-contiguous uint8 array of shape (2, 1) with bytes 7, 9, written
and read back, comes back with shape (2,), not (2, 1). -/
theorem round_trip_collapses_single_column :
    round_trip "points.ply" [("vertex", [("x", ⟨⟨'u', 1⟩, [2, 1], [1, 1], [7, 9]⟩)])] true =
      .ok [("vertex", [("x", ⟨⟨'u', 1⟩, [2], [1], [7, 9]⟩)])] ∧
    ([2] : List Int) ≠ [2, 1] :=
  ⟨rfl, by decide⟩

end tinyplypy
